import Mathlib

/-!
Verification of the audit-run orchestration and result-reduction pipeline of
the upgsperformance repository (src/src/services/screenshot.js and
src/src/routes/scans.js) against its natural-language specification.

JavaScript numbers are modelled as rationals (`ℚ`); the script never performs
an operation where binary floating point and exact rational arithmetic
diverge on the inputs the claims exercise.  The special values `null`,
`undefined` and `NaN` that flow through score fields are modelled by the
`JVal` type below.  Stateful code is modelled either by explicit state
passing (a small array heap for `median`, which the spec requires not to
mutate its input) or by event traces (browser launch/kill calls, database
writes).
-/

namespace UPGSPerf

/-- A JavaScript value as it can appear in a numeric score field of a
Lighthouse result: a finite number, `NaN`, `null`, or `undefined`.
(Engine-produced results are JSON, so score fields are numbers or null;
`NaN`/`undefined` are kept because the source code tests for them.) -/
inductive JVal where
  | num (q : ℚ)
  | nan
  | null
  | undef
deriving DecidableEq

/-- The numeric content of a `JVal`, when it is a finite number. -/
def JVal.toNum : JVal → Option ℚ
  | .num q => some q
  | _ => none

/-- Sort key used when a JS numeric comparator `(a, b) => a - b` is applied.
Only ever reached on arrays of finite numbers in the modelled code paths;
the value chosen for the non-number constructors is irrelevant there. -/
def JVal.key : JVal → ℚ
  | .num q => q
  | _ => 0

/-- JS loose equality test `v == null` (true for `null` and `undefined`). -/
def JVal.isLooseNull : JVal → Bool
  | .null => true
  | .undef => true
  | _ => false

/-- JS `typeof v === 'number'` (true for finite numbers and `NaN`). -/
def JVal.isTypeofNumber : JVal → Bool
  | .num _ => true
  | .nan => true
  | _ => false

/-- JS `Number(v)` restricted to the `JVal` domain:
numbers map to themselves, `Number(null) = 0`, `Number(undefined) = NaN`. -/
def JVal.toNumber : JVal → JVal
  | .num q => .num q
  | .nan => .nan
  | .null => .num 0
  | .undef => .nan

/-- The filter predicate of `median`: `(v) => v != null && !Number.isNaN(v)`. -/
def JVal.keep : JVal → Bool
  | .num _ => true
  | _ => false

/-- JS `Math.round`: round half toward positive infinity. -/
def jsRound (q : ℚ) : ℤ := ⌊q + 1/2⌋

/-- JS `String(n)` for a number; abstracts JS number formatting (no claim
depends on the exact rendering). -/
def jsNumToString (q : ℚ) : String := toString q

/-- JS truthiness of an optional string: `undefined` and `''` are falsy. -/
def strFalsy : Option String → Bool
  | none => true
  | some s => s == ""

/-- JS `a || b` on optional strings. -/
def jsOrOpt (a b : Option String) : Option String :=
  if strFalsy a then b else a

/-- JS `a || b` where the fallback `b` is a plain string. -/
def jsOrStr (a : Option String) (b : String) : String :=
  match a with
  | none => b
  | some s => if s = "" then b else s

/-- JS `chromeVersion || undefined`: a falsy value becomes `undefined`. -/
def orUndef (a : Option String) : Option String :=
  if strFalsy a then none else a

/-- The hyphen-to-space transform `id.replace(hyphen-global-regex, ' ')`. -/
def hyphenToSpace (s : String) : String :=
  s.map (fun c => if c = '-' then ' ' else c)

/-- Insert into a sorted list, before the first element with an equal or
larger key. -/
def insertSorted {α : Type} (key : α → ℚ) (x : α) : List α → List α
  | [] => [x]
  | y :: ys => if key x ≤ key y then x :: y :: ys else y :: insertSorted key x ys

/-- Stable ascending sort by a numeric key: models
`Array.prototype.sort((a, b) => key(a) - key(b))`, which is stable
(elements comparing equal keep their original relative order: the sort
recurses on the tail, and the head — the earliest element — is inserted
before any equal-key element of the sorted tail). -/
def sortByKey {α : Type} (key : α → ℚ) : List α → List α
  | [] => []
  | x :: xs => insertSorted key x (sortByKey key xs)

/-- `median` applied to an array of plain numbers (the shape at every call
site inside `mergeMedianSummary`/`runLighthouse`: the arrays there are built
by `.map(...).filter((v) => v != null)` over number-valued fields, so the
function's own null/NaN filter keeps every element).  Ascending sort, then
the middle element (odd length) or the mean of the two central elements
(even length); `null` on an empty array. -/
def medianQ (values : List ℚ) : Option ℚ :=
  let sorted := sortByKey id values
  if sorted.length = 0 then none
  else
    let mid := sorted.length / 2
    if sorted.length % 2 ≠ 0 then some (sorted.getD mid 0)
    else some ((sorted.getD (mid - 1) 0 + sorted.getD mid 0) / 2)

/-- A tiny JS array heap: arrays are mutable objects identified by a
reference (their index); the `median` source is re-run on it to show it
never writes to its argument array. -/
structure JsHeap where
  arrays : List (List JVal)
deriving DecidableEq

/-- Read the contents of an array reference. -/
def readArr (h : JsHeap) (r : ℕ) : List JVal := h.arrays.getD r []

/-- Allocate a fresh array (JS literals `[...a]` and the array returned by
`Array.prototype.filter` are fresh objects); its reference is the length of
the pre-allocation heap. -/
def allocArr (h : JsHeap) (a : List JVal) : JsHeap :=
  { arrays := h.arrays ++ [a] }

/-- Overwrite the contents of an array reference
(`Array.prototype.sort` mutates its receiver). -/
def writeArr (h : JsHeap) (r : ℕ) (a : List JVal) : JsHeap :=
  { arrays := h.arrays.set r a }

/-- The `median` function of screenshot.js run against the array heap.
`function median(values)`:
`if (!Array.isArray(values) || values.length === 0) return null;`
`const sorted = [...values].filter((v) => v != null && !Number.isNaN(v)).sort((a, b) => a - b);`
`if (sorted.length === 0) return null;`
`const mid = Math.floor(sorted.length / 2);`
`return sorted.length % 2 !== 0 ? sorted[mid] : (sorted[mid - 1] + sorted[mid]) / 2;`
The returned JS number is extracted with `JVal.toNum` (every element of
`sorted` is a finite number by the filter). -/
def medianProg (h : JsHeap) (r : ℕ) : JsHeap × Option ℚ :=
  let values := readArr h r
  if values.length = 0 then (h, none)
  else
    let rc := h.arrays.length
    let h1 := allocArr h values
    let rf := h1.arrays.length
    let h2 := allocArr h1 ((readArr h1 rc).filter JVal.keep)
    let h3 := writeArr h2 rf (sortByKey JVal.key (readArr h2 rf))
    let sorted := readArr h3 rf
    (h3,
      if sorted.length = 0 then none
      else
        let mid := sorted.length / 2
        if sorted.length % 2 ≠ 0 then (sorted.getD mid .null).toNum
        else
          match (sorted.getD (mid - 1) .null).toNum, (sorted.getD mid .null).toNum with
          | some a, some b => some ((a + b) / 2)
          | _, _ => none)

/-- The median contract exactly as the specification words it: filter out
null/NaN, sort the remainder ascending, return the middle element for odd
counts, the arithmetic mean of the two central elements for even counts,
and null when nothing remains after filtering. -/
def medianSpec (values : List JVal) : Option ℚ :=
  let kept := sortByKey id (values.filterMap JVal.toNum)
  if kept.length = 0 then none
  else if kept.length % 2 = 1 then some (kept.getD (kept.length / 2) 0)
  else some ((kept.getD (kept.length / 2 - 1) 0 + kept.getD (kept.length / 2) 0) / 2)

/-! ## Lighthouse result data model (the fields the pipeline reads) -/

/-- One entry of `lhr.categories`. -/
structure CategoryEntry where
  score : JVal
deriving DecidableEq

/-- One frame item of the filmstrip audit details
(`data` is the image payload; `none` models a missing field). -/
structure FrameItem where
  timing : ℚ
  data : Option String
deriving DecidableEq

/-- The `details` object of an audit. `items` is `some` exactly when the
field is an array (`Array.isArray`). -/
structure AuditDetails where
  type : String
  items : Option (List FrameItem)
deriving DecidableEq

/-- One entry of `lhr.audits`.  String-valued fields use `Option String`
(`none` = absent); non-string junk in `description`/`displayValue` is not
modelled (the source maps it to `undefined`, i.e. `none`). -/
structure AuditEntry where
  score : JVal
  title : Option String
  description : Option String
  displayValue : Option String
  numericValue : Option ℚ
  details : Option AuditDetails
deriving DecidableEq

/-- Environment metadata of an LHR. -/
structure EnvInfo where
  hostUserAgent : Option String
deriving DecidableEq

/-- The raw Lighthouse result (the fields this pipeline reads).  Maps are
association lists looked up by first match; JS objects have unique keys. -/
structure Lhr where
  categories : List (String × Option CategoryEntry)
  audits : List (String × Option AuditEntry)
  finalUrl : Option String
  requestedUrl : Option String
  environment : Option EnvInfo
  userAgent : Option String
deriving DecidableEq

/-! ## Result Extractor (extractSummary and its helpers) -/

/-- `normalizeCategoryScore(score)`:
`const n = Number(score); if (Number.isNaN(n) || n < 0) return null;`
`const out = n <= 1 ? Math.round(n * 100) : Math.round(Math.min(100, n));`
`return Math.max(0, Math.min(100, out));` -/
def normalizeCategoryScore (score : JVal) : Option ℤ :=
  match score.toNumber with
  | .num n =>
      if n < 0 then none
      else
        let out := if n ≤ 1 then jsRound (n * 100) else jsRound (min 100 n)
        some (max 0 (min 100 out))
  | _ => none

/-- The category loop of `extractSummary`: keep `(id, cat)` entries whose
score is present (`cat && cat.score != null`) and normalizes to a non-null
value; everything else is omitted from the output map. -/
def extractCategories (cats : List (String × Option CategoryEntry)) :
    List (String × ℤ) :=
  cats.filterMap fun p =>
    match p.2 with
    | none => none
    | some c =>
        if c.score.isLooseNull then none
        else match normalizeCategoryScore c.score with
          | none => none
          | some n => some (p.1, n)

/-- Longest prefix of digits and dots: the capture `[\d.]+` of the
Chrome-version regex. -/
def takeVer (cs : List Char) : List Char :=
  cs.takeWhile (fun c => c.isDigit || c = '.')

/-- Try to match the (lower-cased) pattern `chrom(e|ium)/` at the head of
the character list, returning the characters after the slash. -/
def chromSlash (cs : List Char) : Option (List Char) :=
  if cs.take 5 = ['c', 'h', 'r', 'o', 'm'] then
    let rest := cs.drop 5
    if rest.take 2 = ['e', '/'] then some (rest.drop 2)
    else if rest.take 4 = ['i', 'u', 'm', '/'] then some (rest.drop 4)
    else none
  else none

/-- Leftmost match of the case-insensitive regex
`Chrom(e|ium)/<digits-and-dots>` over a lower-cased character list,
returning the captured version characters. -/
def findChromeVer : List Char → Option String
  | [] => none
  | c :: rest =>
      match chromSlash (c :: rest) with
      | some after =>
          let v := takeVer after
          if v = [] then findChromeVer rest else some (String.mk v)
      | none => findChromeVer rest

/-- `parseChromeVersion(ua)`: `null` unless `ua` is a non-empty string
containing `Chrome/<version>` or `Chromium/<version>` (case-insensitive);
returns the version capture.  (Digits and dots are unaffected by the
lower-casing used for the case-insensitive scan.) -/
def parseChromeVersion (ua : Option String) : Option String :=
  match ua with
  | none => none
  | some s => if s = "" then none else findChromeVer s.toLower.toList

/-- The ids of `MAX_RECOMMENDATIONS` and the fixed metric allow-list. -/
def metricIds : List String :=
  ["first-contentful-paint", "largest-contentful-paint", "total-blocking-time",
   "cumulative-layout-shift", "speed-index", "interactive"]

/-- One recommendation item pushed by `extractRecommendations`.
`score` is `Math.round(audit.score * 100)` and stays a `JVal` because a
`NaN` audit score (not representable in engine JSON, but expressible in JS)
would propagate into this field. -/
structure Recommendation where
  id : String
  title : String
  description : Option String
  score : JVal
  displayValue : Option String
deriving DecidableEq

/-- `Math.round(score * 100)` lifted to `JVal` (NaN propagates). -/
def JVal.round100 : JVal → JVal
  | .num q => .num (jsRound (q * 100) : ℤ)
  | _ => .nan

/-- `audit.score >= 0.9` (false for `NaN`; only reached on typeof-number). -/
def JVal.ge09 : JVal → Bool
  | .num q => decide ((9 : ℚ)/10 ≤ q)
  | _ => false

/-- The record `extractRecommendations` pushes for a retained audit. -/
def mkRec (id : String) (a : AuditEntry) : Recommendation :=
  { id := id
    title := jsOrStr a.title (hyphenToSpace id)
    description := a.description
    score := a.score.round100
    displayValue := a.displayValue }

/-- The collection loop of `extractRecommendations`: iterate the audit
entries in order; break once 20 items are collected; skip entries whose
audit is missing, whose score is null/undefined or not typeof-number, or
whose score is `>= 0.9`; the title falls back to the hyphen-to-space
transform of the id and an entry with an empty resulting title is skipped. -/
def collectRecs : List (String × Option AuditEntry) → List Recommendation →
    List Recommendation
  | [], out => out
  | (id, oa) :: rest, out =>
      if 20 ≤ out.length then out
      else
        match oa with
        | none => collectRecs rest out
        | some a =>
            if a.score.isLooseNull then collectRecs rest out
            else if ¬ a.score.isTypeofNumber then collectRecs rest out
            else if a.score.ge09 then collectRecs rest out
            else if jsOrStr a.title (hyphenToSpace id) = "" then collectRecs rest out
            else collectRecs rest (out ++ [mkRec id a])

/-- `extractRecommendations(audits)`: collect up to 20 audits that need
attention, then `out.sort((a, b) => a.score - b.score)` (stable, ascending
by integer score, worst first). -/
def extractRecommendations (audits : List (String × Option AuditEntry)) :
    List Recommendation :=
  sortByKey (fun r => r.score.key) (collectRecs audits [])

/-- One extracted metric (`value` is `audit.numericValue`; `displayValue`
falls back to `String(audit.numericValue)`, hence always a string). -/
structure Metric where
  value : ℚ
  displayValue : String
deriving DecidableEq

/-- The normalized summary of one raw result (also the shape of the merged
median summary, which the source builds with the same fields). -/
structure SummaryView where
  categories : List (String × ℤ)
  metrics : List (String × Metric)
  recommendations : List Recommendation
  finalUrl : Option String
  chromeVersion : Option String
deriving DecidableEq

/-- `extractSummary(lhr)`: category scores via `normalizeCategoryScore`,
the fixed six-id metric allow-list, recommendations, Chrome version parsed
from `environment.hostUserAgent || lhr.userAgent`, and
`finalUrl: lhr.finalUrl || lhr.requestedUrl`. -/
def extractSummary (lhr : Lhr) : SummaryView :=
  let categories := extractCategories lhr.categories
  let metrics := metricIds.filterMap fun id =>
    match (lhr.audits.lookup id).join with
    | none => none
    | some audit =>
        match audit.numericValue with
        | none => none
        | some v =>
            some (id, { value := v,
                        displayValue := jsOrStr audit.displayValue (jsNumToString v) })
  let recommendations := extractRecommendations lhr.audits
  let hostUserAgent := match lhr.environment with
    | none => none
    | some e => e.hostUserAgent
  let chromeVersion := parseChromeVersion (jsOrOpt hostUserAgent lhr.userAgent)
  { categories := categories
    metrics := metrics
    recommendations := recommendations
    finalUrl := jsOrOpt lhr.finalUrl lhr.requestedUrl
    chromeVersion := orUndef chromeVersion }

/-! ## Filmstrip Extractor / Stripper (scans.js) -/

/-- One output frame (`data` after the `item.data || ''` coalescing). -/
structure Frame where
  timing : ℚ
  data : String
deriving DecidableEq

/-- The extracted filmstrip payload. -/
structure FilmstripPayload where
  frames : List Frame
  chromeVersion : Option String
deriving DecidableEq

/-- `FILMSTRIP_MAX_FRAMES`. -/
def FILMSTRIP_MAX_FRAMES : ℕ := 25

/-- The well-known filmstrip audit id. -/
def filmstripAuditId : String := "screenshot-thumbnails"

/-- `parseChromeVersionFromUA` of scans.js is the same regex scan as
`parseChromeVersion` of screenshot.js; the shared helper embeds both. -/
def chromeVersionOfLhr (lhr : Lhr) : Option String :=
  let hostUserAgent := match lhr.environment with
    | none => none
    | some e => e.hostUserAgent
  parseChromeVersion (jsOrOpt hostUserAgent lhr.userAgent)

/-- `extractFilmstripFromLhr(lhr)`: locate the `screenshot-thumbnails`
audit; yield `null` if it is absent, its details are not of filmstrip type,
its item list is not an array or is empty, or no frame with non-empty image
data remains; otherwise take the first 25 items, coalesce missing data to
the empty string, and drop frames without data. -/
def extractFilmstripFromLhr (lhr : Lhr) : Option FilmstripPayload :=
  match (lhr.audits.lookup filmstripAuditId).join with
  | none => none
  | some audit =>
      match audit.details with
      | none => none
      | some details =>
          if details.type ≠ "filmstrip" then none
          else match details.items with
            | none => none
            | some items =>
                if items.length = 0 then none
                else
                  let frames := ((items.take FILMSTRIP_MAX_FRAMES).map fun item =>
                      ({ timing := item.timing, data := (item.data).getD "" } : Frame)
                    ).filter fun f => f.data ≠ ""
                  if frames.length = 0 then none
                  else some { frames := frames,
                              chromeVersion := orUndef (chromeVersionOfLhr lhr) }

/-- `stripFilmstripFromLhr(lhr)`: set the filmstrip audit's detail item
list to the empty array (`audit.details.items = []`) when the audit exists
with filmstrip-typed details and an array item list; otherwise do nothing.
The source mutates `lhr` in place; the model returns the updated value,
which the scan workflow model threads onward. -/
def stripFilmstripFromLhr (lhr : Lhr) : Lhr :=
  match (lhr.audits.lookup filmstripAuditId).join with
  | none => lhr
  | some audit =>
      match audit.details with
      | none => lhr
      | some details =>
          if details.type = "filmstrip" ∧ details.items.isSome then
            { lhr with audits := lhr.audits.map fun p =>
                if p.1 = filmstripAuditId then
                  (p.1, some { audit with details := some { details with items := some [] } })
                else p }
          else lhr

/-! ## Median-Run Coordinator (screenshot.js) -/

/-- A captured screenshot artifact. -/
structure Screenshot where
  buffer : List ℕ
  ext : String
deriving DecidableEq

/-- The outcome of one orchestrated Lighthouse pass. -/
structure RunOutcome where
  report : Lhr
  summary : SummaryView
  screenshot : Option Screenshot
deriving DecidableEq

/-- The merged outcome `runLighthouse` returns (summary is the merged
median summary, `null` only for an empty run list, which cannot happen). -/
structure MergedOutcome where
  report : Lhr
  summary : Option SummaryView
  screenshot : Option Screenshot
deriving DecidableEq

/-- `(r.summary.categories && r.summary.categories.performance) ?? null`. -/
def perfOf (r : RunOutcome) : Option ℤ :=
  r.summary.categories.lookup "performance"

/-- The same with `?? 0`, as used inside the closest-run reduce. -/
def perfOrZero (r : RunOutcome) : ℤ := (perfOf r).getD 0

/-- Distance of a run's (defaulted) performance score from the median. -/
def distTo (m : ℚ) (r : RunOutcome) : ℚ := |((perfOrZero r : ℤ) : ℚ) - m|

/-- `runs.reduce((best, r) => Math.abs(score - medianPerf) < Math.abs(bestScore - medianPerf) ? r : best)`:
strict improvement only, so the earliest run wins ties. -/
def reduceBest (m : ℚ) (best : RunOutcome) : List RunOutcome → RunOutcome
  | [] => best
  | r :: rest => reduceBest m (if distTo m r < distTo m best then r else best) rest

/-- The representative-run selection block (duplicated verbatim in the
source at `mergeMedianSummary` and `runLighthouse`): collect the non-null
performance scores, take their median, and when it exists reduce to the run
whose own (null-defaulted-to-0) performance score is closest to it; with no
median defined, the first run. -/
def bestRunOf (first : RunOutcome) (rest : List RunOutcome) : RunOutcome :=
  let runs := first :: rest
  let perfScores := runs.filterMap perfOf
  match medianQ (perfScores.map fun z => (z : ℚ)) with
  | none => first
  | some m => reduceBest m first rest

/-- `mergeMedianSummary(runs)`: per-category medians over the first run's
key set, per-metric medians over the fixed allow-list with the display
value of the first run carrying the metric, and recommendations /
finalUrl / chromeVersion from the representative run (finalUrl and
chromeVersion falling back to the first run's values when falsy). -/
def mergeMedianSummary : List RunOutcome → Option SummaryView
  | [] => none
  | first :: rest =>
      let runs := first :: rest
      let categories := (first.summary.categories.map Prod.fst).filterMap fun id =>
        let values : List ℤ := runs.filterMap fun r => r.summary.categories.lookup id
        (medianQ (values.map fun z => (z : ℚ))).map fun m => (id, jsRound m)
      let metrics := metricIds.filterMap fun id =>
        let values := runs.filterMap fun r => (r.summary.metrics.lookup id).map Metric.value
        (medianQ values).map fun m =>
          let dv := match runs.find? (fun r => (r.summary.metrics.lookup id).isSome) with
            | some r => match r.summary.metrics.lookup id with
              | some mt => mt.displayValue
              | none => ""
            | none => ""
          (id, ({ value := m,
                  displayValue := if dv = "" then jsNumToString m else dv } : Metric))
      let bestRun := bestRunOf first rest
      some { categories := categories
             metrics := metrics
             recommendations := bestRun.summary.recommendations
             finalUrl := jsOrOpt bestRun.summary.finalUrl first.summary.finalUrl
             chromeVersion := jsOrOpt bestRun.summary.chromeVersion first.summary.chromeVersion }

/-- `runLighthouse(url, options)` after its `MEDIAN_RUNS = 3` sequential
passes all succeeded with the given outcomes: merge the median summary and
return the representative run's report and screenshot verbatim. -/
def runLighthouse (r1 r2 r3 : RunOutcome) : MergedOutcome :=
  let runs := [r1, r2, r3]
  let medianSummary := mergeMedianSummary runs
  let bestRun := bestRunOf r1 [r2, r3]
  { report := bestRun.report
    summary := medianSummary
    screenshot := bestRun.screenshot }

/-! ## Audit Run Orchestrator (runOneLighthouseRun, takeScreenshotInBrowser)

The effectful collaborators (chrome-launcher, the Lighthouse engine, the
puppeteer page automation) are modelled as oracles supplied in an
environment record: each field is the result the corresponding external
call would produce.  Browser-process lifecycle calls are recorded in an
event trace. -/

/-- A thrown JS error: an optional `code` property and a message. -/
structure JsError where
  code : Option String
  message : String
deriving DecidableEq

/-- The handle `chromeLauncher.launch` resolves to. -/
structure ChromeHandle where
  port : ℕ
deriving DecidableEq

/-- The behavior of the puppeteer steps inside `takeScreenshotInBrowser`:
connect to the port, open a page, set the viewport, navigate (30s timeout),
scroll-reset, and capture.  Each oracle is what that step would do. -/
structure ShotEnv where
  connect : Except JsError Unit
  newPage : Except JsError Unit
  setViewport : Except JsError Unit
  goto : Except JsError Unit
  evaluateScroll : Except JsError Unit
  screenshotCall : Except JsError (List ℕ)

/-- The steps of `takeScreenshotInBrowser` up to the catch-all handler. -/
def shotAttempt (se : ShotEnv) : Except JsError Screenshot := do
  let _ ← se.connect
  let _ ← se.newPage
  let _ ← se.setViewport
  let _ ← se.goto
  let _ ← se.evaluateScroll
  let buffer ← se.screenshotCall
  pure { buffer := buffer, ext := "webp" }

/-- `takeScreenshotInBrowser(port, url, formFactor)`: any failure in any
step is caught, logged, and turned into `null` (after a best-effort
`browser.disconnect()`, which detaches and does not terminate the
process). -/
def takeScreenshotInBrowser (se : ShotEnv) : Option Screenshot :=
  match shotAttempt se with
  | .ok s => some s
  | .error _ => none

/-- Browser-process lifecycle events of one orchestrated run:
one `launchCall` per `chromeLauncher.launch` invocation (with its success),
one `killCall` per `chrome.kill()` invocation (with the target port). -/
inductive BrowserEv where
  | launchCall (ok : Bool)
  | killCall (port : ℕ)
deriving DecidableEq

/-- The environment of one orchestrated run. -/
structure RunEnv where
  launchResult : Except JsError ChromeHandle
  lighthouseResult : Except JsError Lhr
  shot : ShotEnv

/-- The `ECONNREFUSED` rewording of a launch error. -/
def launchFailMsg (e : JsError) : String :=
  let msg := if e.code = some "ECONNREFUSED" then
      "Chrome started but could not connect. Ensure Chromium/Chrome is installed and set CHROME_PATH if needed (see README)."
    else e.message
  "Chrome failed to start: " ++ msg

/-- The `ECONNREFUSED` rewording of a mid-run error. -/
def lighthouseFailMsg (e : JsError) : String :=
  let msg := if e.code = some "ECONNREFUSED" then
      "Chrome exited before Lighthouse could connect. Try installing Chromium (e.g. apt install chromium-browser) and set CHROME_PATH to its binary (see README)."
    else e.message
  "Lighthouse run failed: " ++ msg

/-- `runOneLighthouseRun(url, options)`: launch Chrome (a launch failure is
rethrown without any teardown, since no handle exists); run Lighthouse, on
failure kill the browser and rethrow; on success extract the summary, take
the screenshot inside the same browser (never fatal), kill the browser, and
return the RunOutcome.  The first component is the lifecycle event trace. -/
def runOneLighthouseRun (env : RunEnv) : List BrowserEv × Except String RunOutcome :=
  match env.launchResult with
  | .error e => ([.launchCall false], .error (launchFailMsg e))
  | .ok chrome =>
      match env.lighthouseResult with
      | .error e =>
          ([.launchCall true, .killCall chrome.port], .error (lighthouseFailMsg e))
      | .ok lhr =>
          let summary := extractSummary lhr
          let screenshot := takeScreenshotInBrowser env.shot
          ([.launchCall true, .killCall chrome.port],
           .ok { report := lhr, summary := summary, screenshot := screenshot })

/-- Count of kill events in a trace. -/
def killCount (tr : List BrowserEv) : ℕ :=
  (tr.filter fun ev => match ev with | .killCall _ => true | _ => false).length

/-- Count of launch invocations (successful or not) in a trace. -/
def launchCount (tr : List BrowserEv) : ℕ :=
  (tr.filter fun ev => match ev with | .launchCall _ => true | _ => false).length

/-- Count of successful launches in a trace. -/
def launchOkCount (tr : List BrowserEv) : ℕ :=
  (tr.filter fun ev => ev = .launchCall true).length

/-- Every kill in the trace targets the port of the successfully launched
browser of `env` (vacuously true when there are no kills). -/
def killsTargetLaunched (env : RunEnv) (tr : List BrowserEv) : Bool :=
  tr.all fun ev =>
    match ev with
    | .killCall p =>
        match env.launchResult with
        | .ok c => p = c.port
        | .error _ => false
    | _ => true

/-! ## Scan Workflow (scans.js: runOneScan and the two-device POST branch)

Persistence effects are modelled as an event trace against the record
store / file store; the model assumes the record store itself does not
throw (it is an external collaborator the spec treats as reliable). -/

/-- Persistence events of the scan workflow. -/
inductive DbEv where
  | createScanEv (userId : ℕ) (url : String) (formFactor : String)
      (report : Option Lhr) (runId : Option String) (scanId : ℕ)
  | writeFilmstripEv (scanId : ℕ) (frames : List Frame)
  | writeScreenshotEv (scanId : ℕ)
  | deleteScanEv (scanId : ℕ)
deriving DecidableEq

/-- Environment of one `runOneScan` call: the result `runLighthouse` would
produce, the `reportJson.length <= MAX_REPORT_JSON_LENGTH` size check as a
predicate on the stripped report, and the scan id the record store would
assign. -/
structure ScanEnv where
  lhResult : Except String MergedOutcome
  fitsSizeCap : Lhr → Bool
  scanId : ℕ
deriving Inhabited

/-- `runOneScan(userId, url, formFactor, runId)`: run the median-run
coordinator; extract the filmstrip from the raw report, then strip the
filmstrip from it, serialize it (kept only under the size cap), create the
scan row, then write the filmstrip file (when frames exist) and the
screenshot file (when a non-empty screenshot buffer exists); file-write
failures are logged and swallowed, never undoing the created row. -/
def runOneScanModel (userId : ℕ) (url : String) (formFactor : String)
    (runId : Option String) (env : ScanEnv) : List DbEv × Except String ℕ :=
  match env.lhResult with
  | .error e => ([], .error e)
  | .ok outcome =>
      let filmstripPayload := extractFilmstripFromLhr outcome.report
      let strippedReport := stripFilmstripFromLhr outcome.report
      let reportToStore := if env.fitsSizeCap strippedReport then some strippedReport else none
      let createEvs := [DbEv.createScanEv userId url formFactor reportToStore runId env.scanId]
      let filmstripEvs := match filmstripPayload with
        | some p => if p.frames.length ≠ 0 then [DbEv.writeFilmstripEv env.scanId p.frames] else []
        | none => []
      let screenshotEvs := match outcome.screenshot with
        | some s => if s.buffer.length ≠ 0 then [DbEv.writeScreenshotEv env.scanId] else []
        | none => []
      (createEvs ++ filmstripEvs ++ screenshotEvs, .ok env.scanId)

/-- The response of the two-device branch of `POST /scans`:
redirect to the mobile scan (`/scans/<id>`), the distinct desktop-failed
redirect (`/scans?error=desktop`, rendered as a partial-success message),
or the 500 dashboard render of the outer catch. -/
inductive ScanResponse where
  | redirectToScan (scanId : ℕ)
  | redirectDesktopFailed
  | dashboardError (msg : String)
deriving DecidableEq

/-- The `runMobile && runDesktop` branch of `POST /scans` (with its outer
catch): run the mobile pass; on success run the desktop pass under its own
try/catch whose handler redirects to the desktop-failed condition; a
mobile-pass failure reaches the outer catch and renders the dashboard
error. -/
def postScansBothDevices (userId : ℕ) (url : String) (runId : String)
    (mobileEnv desktopEnv : ScanEnv) : List DbEv × ScanResponse :=
  match runOneScanModel userId url "mobile" (some runId) mobileEnv with
  | (evsM, .error e) => (evsM, .dashboardError e)
  | (evsM, .ok mobileScanId) =>
      match runOneScanModel userId url "desktop" (some runId) desktopEnv with
      | (evsD, .error _) => (evsM ++ evsD, .redirectDesktopFailed)
      | (evsD, .ok _) => (evsM ++ evsD, .redirectToScan mobileScanId)

/-- Count of created scan rows in a persistence trace. -/
def createCount (tr : List DbEv) : ℕ :=
  (tr.filter fun ev => match ev with | .createScanEv .. => true | _ => false).length

/-- Count of deleted scan rows in a persistence trace. -/
def deleteCount (tr : List DbEv) : ℕ :=
  (tr.filter fun ev => match ev with | .deleteScanEv _ => true | _ => false).length

/-- The `report` argument of every created scan row in a trace. -/
def storedReports (tr : List DbEv) : List (Option Lhr) :=
  tr.filterMap fun ev => match ev with
    | .createScanEv _ _ _ rep _ _ => some rep
    | _ => none

/-- The frame lists of every filmstrip file written in a trace. -/
def writtenFilmstrips (tr : List DbEv) : List (List Frame) :=
  tr.filterMap fun ev => match ev with
    | .writeFilmstripEv _ frames => some frames
    | _ => none

/-! ## Specification-side definitions (worded from the spec, for
comparison against the source-derived definitions above) -/

/-- The category-score normalization exactly as the claim words it: an
engine score in `[0, 1]` maps to `round(score * 100)`; a score exceeding 1
is treated as already 0-100 and clamped into `[0, 100]` instead of being
re-scaled; a null, undefined, negative or NaN score is omitted (`none`). -/
def categoryEntrySpec (id : String) (oc : Option CategoryEntry) :
    Option (String × ℤ) :=
  match oc with
  | none => none
  | some c =>
      match c.score with
      | .num q =>
          if q < 0 then none
          else if q ≤ 1 then some (id, jsRound (q * 100))
          else some (id, min 100 (max 0 (jsRound q)))
      | _ => none

/-- No audit entry carries a `NaN` score (always true of engine-produced
results, which are parsed from JSON; JSON cannot represent `NaN`). -/
def auditsNoNaN (audits : List (String × Option AuditEntry)) : Bool :=
  audits.all fun p =>
    match p.2 with
    | some a => a.score ≠ JVal.nan
    | none => true

/-! ## Concrete sample data used by the closed parts of the claims -/

/-- An LHR with every field empty. -/
def emptyLhr : Lhr :=
  { categories := [], audits := [], finalUrl := none, requestedUrl := none,
    environment := none, userAgent := none }

/-- A run outcome with a given performance score (or none), summary
finalUrl and chromeVersion, and a tag that makes its report, screenshot and
recommendations distinguishable from the other runs. -/
def mkRun (perf : Option ℤ) (finalUrl chromeVersion : Option String)
    (tag : String) : RunOutcome :=
  { report := { emptyLhr with finalUrl := some tag }
    summary :=
      { categories := match perf with | some p => [("performance", p)] | none => []
        metrics := []
        recommendations := [{ id := tag, title := tag, description := none,
                              score := .num 0, displayValue := none }]
        finalUrl := finalUrl
        chromeVersion := chromeVersion }
    screenshot := some { buffer := [1], ext := tag } }

/-- Run scoring 60, with a final URL and Chrome version. -/
def runA : RunOutcome := mkRun (some 60) (some "http://a.example/") (some "121.0.1") "a"

/-- Run scoring 80. -/
def runB : RunOutcome := mkRun (some 80) (some "http://b.example/") (some "121.0.2") "b"

/-- Run scoring 70 (the closest to the median 70) whose summary lacks a
final URL and a Chrome version. -/
def runC : RunOutcome := mkRun (some 70) none none "c"

/-- A run without a performance category score. -/
def runNoPerf : RunOutcome := mkRun none (some "http://n.example/") none "n"

/-- A run scoring 0. -/
def runZero : RunOutcome := mkRun (some 0) (some "http://z.example/") none "z"

/-- A run scoring 80 (companion of the no-performance example). -/
def runEighty : RunOutcome := mkRun (some 80) (some "http://e.example/") none "e"

/-- `n` filmstrip frame items, each carrying image data. -/
def filmstripItems (n : ℕ) : List FrameItem :=
  (List.range n).map fun i =>
    { timing := (i : ℚ), data := some ("frame" ++ toString i) }

/-- An audit entry holding filmstrip details with the given items. -/
def filmstripAudit (items : List FrameItem) : AuditEntry :=
  { score := .num 1, title := none, description := none, displayValue := none,
    numericValue := none,
    details := some { type := "filmstrip", items := some items } }

/-- An LHR whose filmstrip audit carries `n` frames, each with image
data. -/
def filmstripLhr (n : ℕ) : Lhr :=
  { emptyLhr with audits := [(filmstripAuditId, some (filmstripAudit (filmstripItems n)))] }

/-- An LHR whose filmstrip audit carries five frames of which the second
and the fourth lack image data. -/
def filmstripLhr5 : Lhr :=
  { emptyLhr with audits :=
      [(filmstripAuditId, some (filmstripAudit
        [{ timing := 0, data := some "d0" },
         { timing := 1, data := none },
         { timing := 2, data := some "d2" },
         { timing := 3, data := some "" },
         { timing := 4, data := some "d4" }]))] }

/-- A screenshot-step environment where every puppeteer step succeeds. -/
def shotOk : ShotEnv :=
  { connect := .ok (), newPage := .ok (), setViewport := .ok (),
    goto := .ok (), evaluateScroll := .ok (), screenshotCall := .ok [7, 7] }

/-- A screenshot-step environment whose navigation times out. -/
def shotNavTimeout : ShotEnv :=
  { shotOk with goto := .error { code := none, message := "Navigation timeout of 30000 ms exceeded" } }

/-- A run environment whose browser launch fails. -/
def envLaunchFail : RunEnv :=
  { launchResult := .error { code := none, message := "spawn ENOENT" }
    lighthouseResult := .error { code := none, message := "not reached" }
    shot := shotOk }

/-- A run environment where launch and audit succeed but the in-session
screenshot navigation times out. -/
def envShotFail : RunEnv :=
  { launchResult := .ok { port := 9222 }
    lighthouseResult := .ok (filmstripLhr 2)
    shot := shotNavTimeout }

/-- The audits of the claim's recommendation example: scores
`[0.95, 0.40, 0.89, 0.90, null]`. -/
def recExampleAudits : List (String × Option AuditEntry) :=
  [("audit-a", some { score := .num (95/100), title := some "A", description := none,
                      displayValue := none, numericValue := none, details := none }),
   ("audit-b", some { score := .num (40/100), title := some "B", description := none,
                      displayValue := none, numericValue := none, details := none }),
   ("audit-c", some { score := .num (89/100), title := some "C", description := none,
                      displayValue := none, numericValue := none, details := none }),
   ("audit-d", some { score := .num (90/100), title := some "D", description := none,
                      displayValue := none, numericValue := none, details := none }),
   ("audit-e", some { score := .null, title := some "E", description := none,
                      displayValue := none, numericValue := none, details := none })]

/-! # Lemmas -/

theorem mem_insertSorted {α : Type} (key : α → ℚ) (x b : α) (l : List α) :
    b ∈ insertSorted key x l ↔ b = x ∨ b ∈ l := by
  induction l with
  | nil => simp [insertSorted]
  | cons y ys ih =>
      simp only [insertSorted]
      split
      · simp [List.mem_cons]
      · simp only [List.mem_cons, ih]
        tauto

theorem insertSorted_perm {α : Type} (key : α → ℚ) (x : α) (l : List α) :
    List.Perm (insertSorted key x l) (x :: l) := by
  induction l with
  | nil => exact List.Perm.refl _
  | cons y ys ih =>
      simp only [insertSorted]
      split
      · exact List.Perm.refl _
      · exact List.Perm.trans (List.Perm.cons y ih) (List.Perm.swap x y ys)

theorem sortByKey_perm {α : Type} (key : α → ℚ) (l : List α) :
    List.Perm (sortByKey key l) l := by
  induction l with
  | nil => exact List.Perm.refl _
  | cons x xs ih =>
      exact List.Perm.trans (insertSorted_perm key x _) (List.Perm.cons x ih)

theorem sortByKey_length {α : Type} (key : α → ℚ) (l : List α) :
    (sortByKey key l).length = l.length :=
  (sortByKey_perm key l).length_eq

theorem mem_sortByKey {α : Type} (key : α → ℚ) (b : α) (l : List α) :
    b ∈ sortByKey key l ↔ b ∈ l :=
  (sortByKey_perm key l).mem_iff

theorem sorted_insertSorted {α : Type} (key : α → ℚ) (x : α) {l : List α}
    (h : l.Sorted fun a b => key a ≤ key b) :
    (insertSorted key x l).Sorted fun a b => key a ≤ key b := by
  induction l with
  | nil => simp [insertSorted]
  | cons y ys ih =>
      rw [List.sorted_cons] at h
      simp only [insertSorted]
      split
      case isTrue hxy =>
        rw [List.sorted_cons]
        refine ⟨?_, ?_⟩
        · intro b hb
          rcases List.mem_cons.mp hb with rfl | hb'
          · exact hxy
          · exact le_trans hxy (h.1 b hb')
        · rw [List.sorted_cons]
          exact h
      case isFalse hxy =>
        rw [List.sorted_cons]
        refine ⟨?_, ih h.2⟩
        intro b hb
        rcases (mem_insertSorted key x b ys).mp hb with rfl | hb'
        · exact le_of_not_le hxy
        · exact h.1 b hb'

theorem sorted_sortByKey {α : Type} (key : α → ℚ) (l : List α) :
    (sortByKey key l).Sorted fun a b => key a ≤ key b := by
  induction l with
  | nil => simp [sortByKey]
  | cons x xs ih => exact sorted_insertSorted key x ih

theorem insertSorted_map {α β : Type} (key : β → ℚ) (f : α → β) (x : α) (l : List α) :
    insertSorted key (f x) (l.map f) = (insertSorted (fun a => key (f a)) x l).map f := by
  induction l with
  | nil => rfl
  | cons y ys ih =>
      by_cases hc : key (f x) ≤ key (f y)
      · simp [insertSorted, hc]
      · simp [insertSorted, hc, ih]

theorem sortByKey_map {α β : Type} (key : β → ℚ) (f : α → β) (l : List α) :
    sortByKey key (l.map f) = (sortByKey (fun a => key (f a)) l).map f := by
  induction l with
  | nil => rfl
  | cons x xs ih => simp only [List.map_cons, sortByKey, ih, insertSorted_map]

theorem filter_keep_eq_map (values : List JVal) :
    values.filter JVal.keep = (values.filterMap JVal.toNum).map JVal.num := by
  induction values with
  | nil => rfl
  | cons v vs ih =>
      cases v <;>
        simp [JVal.keep, JVal.toNum, List.filter_cons, List.filterMap_cons, ih]

theorem getD_map_num (l : List ℚ) (i : ℕ) (h : i < l.length) :
    ((l.map JVal.num).getD i .null) = .num (l.getD i 0) := by
  rw [List.getD_eq_getElem?_getD, List.getElem?_map, List.getD_eq_getElem?_getD,
    List.getElem?_eq_getElem h]
  rfl

theorem readArr_alloc_self (h : JsHeap) (a : List JVal) :
    readArr (allocArr h a) h.arrays.length = a := by
  simp only [readArr, allocArr, List.getD_eq_getElem?_getD]
  rw [List.getElem?_append_right (le_refl _)]
  simp

theorem readArr_alloc_lt (h : JsHeap) (a : List JVal) (r : ℕ)
    (hr : r < h.arrays.length) : readArr (allocArr h a) r = readArr h r := by
  simp only [readArr, allocArr, List.getD_eq_getElem?_getD]
  rw [List.getElem?_append_left hr]

theorem length_alloc (h : JsHeap) (a : List JVal) :
    (allocArr h a).arrays.length = h.arrays.length + 1 := by
  simp [allocArr]

theorem readArr_write_self (h : JsHeap) (r : ℕ) (a : List JVal)
    (hr : r < h.arrays.length) : readArr (writeArr h r a) r = a := by
  simp only [readArr, writeArr, List.getD_eq_getElem?_getD]
  rw [List.getElem?_set_eq_of_lt a hr]
  rfl

theorem readArr_write_ne (h : JsHeap) (r r' : ℕ) (a : List JVal) (hne : r ≠ r') :
    readArr (writeArr h r a) r' = readArr h r' := by
  simp only [readArr, writeArr, List.getD_eq_getElem?_getD]
  rw [List.getElem?_set_ne hne]

theorem medianProg_heap (h : JsHeap) (r r' : ℕ) (hr' : r' < h.arrays.length) :
    readArr (medianProg h r).1 r' = readArr h r' := by
  by_cases h0 : (readArr h r).length = 0
  · simp [medianProg, h0]
  · have hne : (allocArr h (readArr h r)).arrays.length ≠ r' := by
      rw [length_alloc]
      omega
    have hlt1 : r' < (allocArr h (readArr h r)).arrays.length := by
      rw [length_alloc]
      omega
    unfold medianProg
    simp only []
    rw [if_neg h0]
    rw [readArr_write_ne _ _ _ _ hne, readArr_alloc_lt _ _ _ hlt1,
      readArr_alloc_lt _ _ _ hr']

theorem sortByKey_key_map_num (l : List ℚ) :
    sortByKey JVal.key (l.map JVal.num) = (sortByKey id l).map JVal.num :=
  sortByKey_map JVal.key JVal.num l

theorem readArr_write_alloc2 (h : JsHeap) (a b c : List JVal) :
    readArr (writeArr (allocArr (allocArr h a) b) (allocArr h a).arrays.length c)
      ((allocArr h a).arrays.length) = c :=
  readArr_write_self _ _ _ (by simp only [length_alloc]; omega)

theorem medianProg_val (h : JsHeap) (r : ℕ) :
    (medianProg h r).2 = medianSpec (readArr h r) := by
  by_cases h0 : (readArr h r).length = 0
  · rw [List.length_eq_zero] at h0
    simp [medianProg, medianSpec, h0, sortByKey]
  · unfold medianProg
    simp only []
    rw [if_neg h0]
    rw [readArr_write_alloc2]
    simp only [readArr_alloc_self]
    rw [filter_keep_eq_map, sortByKey_key_map_num]
    simp only [medianSpec, List.length_map]
    set kept := sortByKey id ((readArr h r).filterMap JVal.toNum) with hkept
    by_cases hk0 : kept.length = 0
    · simp [hk0]
    · have hkpos : 0 < kept.length := Nat.pos_of_ne_zero hk0
      have hmidlt : kept.length / 2 < kept.length := Nat.div_lt_self hkpos (by norm_num)
      have hmid1lt : kept.length / 2 - 1 < kept.length :=
        lt_of_le_of_lt (Nat.sub_le _ _) hmidlt
      rw [if_neg hk0, if_neg hk0]
      rcases Nat.mod_two_eq_zero_or_one kept.length with hpar | hpar
      · rw [if_neg (by omega), if_neg (by omega)]
        rw [getD_map_num _ _ hmid1lt, getD_map_num _ _ hmidlt]
        rfl
      · rw [if_pos (by omega), if_pos (by omega)]
        rw [getD_map_num _ _ hmidlt]
        rfl

theorem reduceBest_mem (m : ℚ) (b : RunOutcome) (rs : List RunOutcome) :
    reduceBest m b rs ∈ b :: rs := by
  induction rs generalizing b with
  | nil => simp [reduceBest]
  | cons r rest ih =>
      simp only [reduceBest]
      by_cases hc : distTo m r < distTo m b
      · rw [if_pos hc]
        rcases List.mem_cons.mp (ih r) with h1 | h1
        · rw [h1]
          exact List.mem_cons_of_mem _ (List.mem_cons_self _ _)
        · exact List.mem_cons_of_mem _ (List.mem_cons_of_mem _ h1)
      · rw [if_neg hc]
        rcases List.mem_cons.mp (ih b) with h1 | h1
        · rw [h1]
          exact List.mem_cons_self _ _
        · exact List.mem_cons_of_mem _ (List.mem_cons_of_mem _ h1)

theorem reduceBest_min (m : ℚ) (b : RunOutcome) (rs : List RunOutcome) :
    ∀ r' ∈ b :: rs, distTo m (reduceBest m b rs) ≤ distTo m r' := by
  induction rs generalizing b with
  | nil =>
      intro r' hr'
      rcases List.mem_cons.mp hr' with h1 | h1
      · rw [h1]
        simp [reduceBest]
      · simp at h1
  | cons r rest ih =>
      intro r' hr'
      simp only [reduceBest]
      by_cases hc : distTo m r < distTo m b
      · rw [if_pos hc]
        rcases List.mem_cons.mp hr' with h1 | h1
        · rw [h1]
          exact le_trans (ih r r (List.mem_cons_self _ _)) (le_of_lt hc)
        · exact ih r r' h1
      · rw [if_neg hc]
        rcases List.mem_cons.mp hr' with h1 | h1
        · rw [h1]
          exact ih b b (List.mem_cons_self _ _)
        · rcases List.mem_cons.mp h1 with h2 | h2
          · rw [h2]
            exact le_trans (ih b b (List.mem_cons_self _ _)) (le_of_not_lt hc)
          · exact ih b r' (List.mem_cons_of_mem _ h2)

theorem reduceBest_earliest (m : ℚ) (b : RunOutcome) (rs : List RunOutcome) :
    ∃ l₁ l₂, b :: rs = l₁ ++ reduceBest m b rs :: l₂ ∧
      ∀ r' ∈ l₁, distTo m (reduceBest m b rs) < distTo m r' := by
  induction rs generalizing b with
  | nil => exact ⟨[], [], by simp [reduceBest], by simp⟩
  | cons r rest ih =>
      simp only [reduceBest]
      by_cases hc : distTo m r < distTo m b
      · rw [if_pos hc]
        obtain ⟨l₁, l₂, heq, hlt⟩ := ih r
        refine ⟨b :: l₁, l₂, ?_, ?_⟩
        · rw [List.cons_append]
          exact congrArg (fun t => b :: t) heq
        · intro r' hr'
          rcases List.mem_cons.mp hr' with h1 | h1
          · rw [h1]
            exact lt_of_le_of_lt (reduceBest_min m r rest r (List.mem_cons_self _ _)) hc
          · exact hlt r' h1
      · rw [if_neg hc]
        obtain ⟨l₁, l₂, heq, hlt⟩ := ih b
        cases l₁ with
        | nil =>
            rw [List.nil_append] at heq
            have hb : b = reduceBest m b rest := ((List.cons.injEq _ _ _ _).mp heq).1
            refine ⟨[], r :: rest, ?_, by simp⟩
            rw [List.nil_append, ← hb]
        | cons x l₁' =>
            rw [List.cons_append] at heq
            have hx : b = x ∧ rest = l₁' ++ reduceBest m b rest :: l₂ :=
              (List.cons.injEq _ _ _ _).mp heq
            refine ⟨b :: r :: l₁', l₂, ?_, ?_⟩
            · rw [List.cons_append, List.cons_append]
              exact congrArg (fun t => b :: r :: t) hx.2
            · intro r' hr'
              have hresb : distTo m (reduceBest m b rest) < distTo m b := by
                have hxx := hlt x (List.mem_cons_self _ _)
                rw [← hx.1] at hxx
                exact hxx
              rcases List.mem_cons.mp hr' with h1 | h1
              · rw [h1]
                exact hresb
              · rcases List.mem_cons.mp h1 with h2 | h2
                · rw [h2]
                  exact lt_of_lt_of_le hresb (le_of_not_lt hc)
                · exact hlt r' (List.mem_cons_of_mem _ h2)

theorem bestRunOf_eq_reduceBest (first : RunOutcome) (rest : List RunOutcome)
    (m : ℚ)
    (hm : medianQ ((((first :: rest).filterMap perfOf)).map fun z => (z : ℚ)) = some m) :
    bestRunOf first rest = reduceBest m first rest := by
  unfold bestRunOf
  simp only []
  rw [hm]

theorem collectRecs_length_le (audits : List (String × Option AuditEntry))
    (out : List Recommendation) (h : out.length ≤ 20) :
    (collectRecs audits out).length ≤ 20 := by
  induction audits generalizing out with
  | nil => simpa [collectRecs]
  | cons p rest ih =>
      obtain ⟨id, oa⟩ := p
      simp only [collectRecs]
      by_cases h20 : 20 ≤ out.length
      · rw [if_pos h20]
        exact h
      · rw [if_neg h20]
        cases oa with
        | none => exact ih out h
        | some a =>
            simp only []
            by_cases h1 : a.score.isLooseNull
            · rw [if_pos h1]
              exact ih out h
            · rw [if_neg h1]
              by_cases h2 : ¬ a.score.isTypeofNumber
              · rw [if_pos h2]
                exact ih out h
              · rw [if_neg h2]
                by_cases h3 : a.score.ge09
                · rw [if_pos h3]
                  exact ih out h
                · rw [if_neg h3]
                  by_cases h4 : jsOrStr a.title (hyphenToSpace id) = ""
                  · rw [if_pos h4]
                    exact ih out h
                  · rw [if_neg h4]
                    refine ih _ ?_
                    rw [List.length_append, List.length_singleton]
                    omega

theorem collectRecs_mem (audits : List (String × Option AuditEntry))
    (out : List Recommendation) (r : Recommendation)
    (hr : r ∈ collectRecs audits out) :
    r ∈ out ∨ ∃ id a, (id, some a) ∈ audits ∧ ¬ a.score.isLooseNull ∧
      a.score.isTypeofNumber ∧ ¬ a.score.ge09 ∧ r = mkRec id a := by
  induction audits generalizing out with
  | nil => exact Or.inl hr
  | cons p rest ih =>
      obtain ⟨id, oa⟩ := p
      simp only [collectRecs] at hr
      by_cases h20 : 20 ≤ out.length
      · rw [if_pos h20] at hr
        exact Or.inl hr
      · rw [if_neg h20] at hr
        have liftTail : (r ∈ out ∨ ∃ id' a', (id', some a') ∈ rest ∧
              ¬ a'.score.isLooseNull ∧ a'.score.isTypeofNumber ∧ ¬ a'.score.ge09 ∧
              r = mkRec id' a') →
            r ∈ out ∨ ∃ id' a', (id', some a') ∈ (id, oa) :: rest ∧
              ¬ a'.score.isLooseNull ∧ a'.score.isTypeofNumber ∧ ¬ a'.score.ge09 ∧
              r = mkRec id' a' := by
          rintro (h | ⟨id', a', hm, hx⟩)
          · exact Or.inl h
          · exact Or.inr ⟨id', a', List.mem_cons_of_mem _ hm, hx⟩
        cases oa with
        | none => exact liftTail (ih out hr)
        | some a =>
            simp only [] at hr
            by_cases h1 : a.score.isLooseNull
            · rw [if_pos h1] at hr
              exact liftTail (ih out hr)
            · rw [if_neg h1] at hr
              by_cases h2 : ¬ a.score.isTypeofNumber
              · rw [if_pos h2] at hr
                exact liftTail (ih out hr)
              · rw [if_neg h2] at hr
                by_cases h3 : a.score.ge09
                · rw [if_pos h3] at hr
                  exact liftTail (ih out hr)
                · rw [if_neg h3] at hr
                  by_cases h4 : jsOrStr a.title (hyphenToSpace id) = ""
                  · rw [if_pos h4] at hr
                    exact liftTail (ih out hr)
                  · rw [if_neg h4] at hr
                    rcases ih _ hr with h | ⟨id', a', hm, hx⟩
                    · rcases List.mem_append.mp h with h5 | h5
                      · exact Or.inl h5
                      · rw [List.mem_singleton.mp h5]
                        exact Or.inr ⟨id, a, List.mem_cons_self _ _, h1,
                          not_not.mp h2, h3, rfl⟩
                    · exact Or.inr ⟨id', a', List.mem_cons_of_mem _ hm, hx⟩

theorem lookup_map_set_self {β : Type} (l : List (String × β)) (k : String)
    (c : β) (v : β) (hv : l.lookup k = some v) :
    (l.map fun p => if p.1 = k then (p.1, c) else p).lookup k = some c := by
  induction l with
  | nil => simp [List.lookup] at hv
  | cons p rest ih =>
      obtain ⟨k', v'⟩ := p
      by_cases hk : k = k'
      · simp only [List.map_cons]
        rw [if_pos hk.symm]
        simp [List.lookup, hk]
      · simp only [List.lookup, beq_eq_false_iff_ne.mpr hk] at hv
        simp only [List.map_cons]
        rw [if_neg (fun hx => hk hx.symm)]
        simp only [List.lookup, beq_eq_false_iff_ne.mpr hk]
        exact ih hv

theorem lookup_map_set_ne {β : Type} (l : List (String × β)) (k : String)
    (c : β) (id : String) (hne : id ≠ k) :
    (l.map fun p => if p.1 = k then (p.1, c) else p).lookup id = l.lookup id := by
  induction l with
  | nil => rfl
  | cons p rest ih =>
      obtain ⟨k', v'⟩ := p
      simp only [List.map_cons]
      by_cases hk : k' = k
      · rw [if_pos hk]
        have hid : (id == k') = false := beq_eq_false_iff_ne.mpr (hk ▸ hne)
        simp only [List.lookup, hid]
        exact ih
      · rw [if_neg hk]
        by_cases hid : id = k'
        · simp [List.lookup, hid]
        · simp only [List.lookup, beq_eq_false_iff_ne.mpr hid]
          exact ih

theorem join_eq_some {α : Type} {o : Option (Option α)} {x : α}
    (h : o.join = some x) : o = some (some x) := by
  cases o with
  | none => simp at h
  | some o' =>
      cases o' with
      | none => simp at h
      | some y => simp at h; rw [h]

theorem extract_some_props (lhr : Lhr) (p : FilmstripPayload)
    (hp : extractFilmstripFromLhr lhr = some p) :
    ∃ a d items, (lhr.audits.lookup filmstripAuditId).join = some a ∧
      a.details = some d ∧ d.type = "filmstrip" ∧ d.items = some items ∧
      items ≠ [] ∧
      p.frames = ((items.take FILMSTRIP_MAX_FRAMES).map fun item =>
        ({ timing := item.timing, data := (item.data).getD "" } : Frame)).filter
          (fun f => f.data ≠ "") ∧
      p.frames ≠ [] := by
  unfold extractFilmstripFromLhr at hp
  cases hj : (lhr.audits.lookup filmstripAuditId).join with
  | none => rw [hj] at hp; simp at hp
  | some a =>
      rw [hj] at hp
      simp only [] at hp
      cases hd : a.details with
      | none => rw [hd] at hp; simp at hp
      | some d =>
          rw [hd] at hp
          simp only [] at hp
          by_cases ht : d.type ≠ "filmstrip"
          · rw [if_pos ht] at hp
            simp at hp
          · rw [if_neg ht] at hp
            cases hi : d.items with
            | none => rw [hi] at hp; simp at hp
            | some items =>
                rw [hi] at hp
                simp only [] at hp
                by_cases hlen : items.length = 0
                · rw [if_pos hlen] at hp
                  simp at hp
                · rw [if_neg hlen] at hp
                  by_cases hf : (((items.take FILMSTRIP_MAX_FRAMES).map fun item =>
                      ({ timing := item.timing, data := (item.data).getD "" } : Frame)).filter
                        (fun f => f.data ≠ "")).length = 0
                  · rw [if_pos hf] at hp
                    simp at hp
                  · rw [if_neg hf] at hp
                    have heq := (Option.some_inj.mp hp).symm
                    refine ⟨a, d, items, rfl, hd, not_not.mp ht, hi, ?_, ?_, ?_⟩
                    · intro hnil
                      rw [hnil] at hlen
                      exact hlen rfl
                    · rw [heq]
                    · rw [heq]
                      intro hnil
                      simp only [] at hnil
                      rw [hnil] at hf
                      exact hf rfl

theorem extract_frames_length (lhr : Lhr) (p : FilmstripPayload)
    (hp : extractFilmstripFromLhr lhr = some p) :
    p.frames.length ≤ FILMSTRIP_MAX_FRAMES ∧ ∀ f ∈ p.frames, f.data ≠ "" := by
  obtain ⟨a, d, items, _, _, _, _, _, hfr, _⟩ := extract_some_props lhr p hp
  constructor
  · rw [hfr]
    calc (((items.take FILMSTRIP_MAX_FRAMES).map fun item =>
          ({ timing := item.timing, data := (item.data).getD "" } : Frame)).filter
            (fun f => f.data ≠ "")).length
        ≤ ((items.take FILMSTRIP_MAX_FRAMES).map fun item =>
          ({ timing := item.timing, data := (item.data).getD "" } : Frame)).length :=
          List.length_filter_le _ _
      _ = (items.take FILMSTRIP_MAX_FRAMES).length := List.length_map _ _
      _ ≤ FILMSTRIP_MAX_FRAMES := by
          rw [List.length_take]
          exact min_le_left _ _
  · intro f hf
    rw [hfr] at hf
    have := List.of_mem_filter hf
    exact of_decide_eq_true this

theorem strip_preserves_fields (lhr : Lhr) :
    (stripFilmstripFromLhr lhr).categories = lhr.categories ∧
    (stripFilmstripFromLhr lhr).finalUrl = lhr.finalUrl ∧
    (stripFilmstripFromLhr lhr).requestedUrl = lhr.requestedUrl ∧
    (stripFilmstripFromLhr lhr).environment = lhr.environment ∧
    (stripFilmstripFromLhr lhr).userAgent = lhr.userAgent := by
  unfold stripFilmstripFromLhr
  cases (lhr.audits.lookup filmstripAuditId).join with
  | none => exact ⟨rfl, rfl, rfl, rfl, rfl⟩
  | some a =>
      simp only []
      cases a.details with
      | none => exact ⟨rfl, rfl, rfl, rfl, rfl⟩
      | some d =>
          simp only []
          split
          · exact ⟨rfl, rfl, rfl, rfl, rfl⟩
          · exact ⟨rfl, rfl, rfl, rfl, rfl⟩

theorem strip_audits_lookup_ne (lhr : Lhr) (id : String)
    (hne : id ≠ filmstripAuditId) :
    (stripFilmstripFromLhr lhr).audits.lookup id = lhr.audits.lookup id := by
  unfold stripFilmstripFromLhr
  cases (lhr.audits.lookup filmstripAuditId).join with
  | none => rfl
  | some a =>
      simp only []
      cases a.details with
      | none => rfl
      | some d =>
          simp only []
          split
          · exact lookup_map_set_ne lhr.audits filmstripAuditId _ id hne
          · rfl

theorem strip_filmstrip_lookup (lhr : Lhr) (a : AuditEntry) (d : AuditDetails)
    (items : List FrameItem)
    (ha : (lhr.audits.lookup filmstripAuditId).join = some a)
    (hd : a.details = some d) (ht : d.type = "filmstrip")
    (hi : d.items = some items) :
    ((stripFilmstripFromLhr lhr).audits.lookup filmstripAuditId).join =
      some { a with details := some { d with items := some [] } } := by
  unfold stripFilmstripFromLhr
  rw [ha]
  simp only []
  rw [hd]
  simp only []
  rw [if_pos ⟨ht, by rw [hi]; rfl⟩]
  simp only []
  rw [lookup_map_set_self lhr.audits filmstripAuditId _ (some a) (join_eq_some ha)]
  rfl

theorem extract_strip_none (lhr : Lhr) :
    extractFilmstripFromLhr (stripFilmstripFromLhr lhr) = none := by
  cases hj : (lhr.audits.lookup filmstripAuditId).join with
  | none =>
      have hs : stripFilmstripFromLhr lhr = lhr := by
        unfold stripFilmstripFromLhr
        rw [hj]
      rw [hs]
      unfold extractFilmstripFromLhr
      rw [hj]
  | some a =>
      cases hd : a.details with
      | none =>
          have hs : stripFilmstripFromLhr lhr = lhr := by
            unfold stripFilmstripFromLhr
            rw [hj]
            simp only []
            rw [hd]
          rw [hs]
          unfold extractFilmstripFromLhr
          rw [hj]
          simp only []
          rw [hd]
      | some d =>
          by_cases ht : d.type = "filmstrip"
          · cases hi : d.items with
            | none =>
                have hs : stripFilmstripFromLhr lhr = lhr := by
                  unfold stripFilmstripFromLhr
                  rw [hj]
                  simp only []
                  rw [hd]
                  simp only []
                  rw [if_neg (fun hand => by
                    have := hand.2
                    rw [hi] at this
                    simp at this)]
                rw [hs]
                unfold extractFilmstripFromLhr
                rw [hj]
                simp only []
                rw [hd]
                simp only []
                rw [if_neg (not_not.mpr ht)]
                rw [hi]
            | some items =>
                have hl := strip_filmstrip_lookup lhr a d items hj hd ht hi
                unfold extractFilmstripFromLhr
                rw [hl]
                simp only []
                rw [if_neg (not_not.mpr ht)]
                rfl
          · have hs : stripFilmstripFromLhr lhr = lhr := by
              unfold stripFilmstripFromLhr
              rw [hj]
              simp only []
              rw [hd]
              simp only []
              rw [if_neg (fun hand => ht hand.1)]
            rw [hs]
            unfold extractFilmstripFromLhr
            rw [hj]
            simp only []
            rw [hd]
            simp only []
            rw [if_pos ht]

theorem jsRound_mono {a b : ℚ} (h : a ≤ b) : jsRound a ≤ jsRound b :=
  Int.floor_le_floor (by linarith)

theorem jsRound_intCast (n : ℤ) : jsRound (n : ℚ) = n := by
  unfold jsRound
  rw [Int.floor_int_add]
  norm_num

theorem runOneScanModel_ok_eq (userId : ℕ) (url ff : String) (runId : Option String)
    (fits : Lhr → Bool) (sid : ℕ) (outcome : MergedOutcome) :
    runOneScanModel userId url ff runId
        { lhResult := .ok outcome, fitsSizeCap := fits, scanId := sid } =
      ([DbEv.createScanEv userId url ff
          (if fits (stripFilmstripFromLhr outcome.report)
            then some (stripFilmstripFromLhr outcome.report) else none) runId sid] ++
        (match extractFilmstripFromLhr outcome.report with
          | some p => if p.frames.length ≠ 0 then [DbEv.writeFilmstripEv sid p.frames] else []
          | none => []) ++
        (match outcome.screenshot with
          | some s => if s.buffer.length ≠ 0 then [DbEv.writeScreenshotEv sid] else []
          | none => []),
       .ok sid) := rfl

theorem runOneScanModel_error_eq (userId : ℕ) (url ff : String)
    (runId : Option String) (fits : Lhr → Bool) (sid : ℕ) (e : String) :
    runOneScanModel userId url ff runId
        { lhResult := .error e, fitsSizeCap := fits, scanId := sid } = ([], .error e) := rfl

theorem createCount_append (a b : List DbEv) :
    createCount (a ++ b) = createCount a + createCount b := by
  simp [createCount, List.filter_append]

theorem deleteCount_append (a b : List DbEv) :
    deleteCount (a ++ b) = deleteCount a + deleteCount b := by
  simp [deleteCount, List.filter_append]

theorem createCount_filmEvs (sid : ℕ) (o : Option FilmstripPayload) :
    createCount (match o with
      | some p => if p.frames.length ≠ 0 then [DbEv.writeFilmstripEv sid p.frames] else []
      | none => []) = 0 := by
  rcases o with _ | p
  · rfl
  · simp only []
    split
    · rfl
    · rfl

theorem createCount_shotEvs (sid : ℕ) (o : Option Screenshot) :
    createCount (match o with
      | some s => if s.buffer.length ≠ 0 then [DbEv.writeScreenshotEv sid] else []
      | none => []) = 0 := by
  rcases o with _ | s
  · rfl
  · simp only []
    split
    · rfl
    · rfl

theorem deleteCount_filmEvs (sid : ℕ) (o : Option FilmstripPayload) :
    deleteCount (match o with
      | some p => if p.frames.length ≠ 0 then [DbEv.writeFilmstripEv sid p.frames] else []
      | none => []) = 0 := by
  rcases o with _ | p
  · rfl
  · simp only []
    split
    · rfl
    · rfl

theorem deleteCount_shotEvs (sid : ℕ) (o : Option Screenshot) :
    deleteCount (match o with
      | some s => if s.buffer.length ≠ 0 then [DbEv.writeScreenshotEv sid] else []
      | none => []) = 0 := by
  rcases o with _ | s
  · rfl
  · simp only []
    split
    · rfl
    · rfl

theorem jsRound_zero : jsRound 0 = 0 := by
  have := jsRound_intCast 0
  norm_num at this
  simpa using this

theorem jsRound_one : jsRound 1 = 1 := by
  have := jsRound_intCast 1
  norm_num at this
  simpa using this

theorem jsRound_hundred : jsRound 100 = 100 := by
  have := jsRound_intCast 100
  norm_num at this
  simpa using this

theorem categoryEntry_code_eq_spec (id : String) (oc : Option CategoryEntry) :
    (match oc with
      | none => none
      | some c =>
          if c.score.isLooseNull then none
          else
            match normalizeCategoryScore c.score with
            | none => none
            | some n => some (id, n)) = categoryEntrySpec id oc := by
  cases oc with
  | none => rfl
  | some c =>
      obtain ⟨sc⟩ := c
      cases sc with
      | null => rfl
      | undef => rfl
      | nan => rfl
      | num q =>
          simp only []
          rw [if_neg (show ¬ (JVal.num q).isLooseNull = true by simp [JVal.isLooseNull])]
          simp only [normalizeCategoryScore, JVal.toNumber, categoryEntrySpec]
          by_cases hq0 : q < 0
          · rw [if_pos hq0, if_pos hq0]
          · rw [if_neg hq0, if_neg hq0]
            have hq0' : (0 : ℚ) ≤ q := le_of_not_lt hq0
            by_cases hq1 : q ≤ 1
            · rw [if_pos hq1, if_pos hq1]
              have h0 : 0 ≤ jsRound (q * 100) := by
                have := jsRound_mono (show (0 : ℚ) ≤ q * 100 by nlinarith)
                rwa [jsRound_zero] at this
              have h100 : jsRound (q * 100) ≤ 100 := by
                have := jsRound_mono (show q * 100 ≤ 100 by nlinarith)
                rwa [jsRound_hundred] at this
              simp only []
              congr 1
              congr 1
              omega
            · rw [if_neg hq1, if_neg hq1]
              have hq1' : (1 : ℚ) < q := lt_of_not_le hq1
              by_cases hq100 : q ≤ 100
              · rw [min_eq_right hq100]
                have hub : jsRound q ≤ 100 := by
                  have := jsRound_mono hq100
                  rwa [jsRound_hundred] at this
                have hlb : 1 ≤ jsRound q := by
                  have := jsRound_mono (le_of_lt hq1')
                  rwa [jsRound_one] at this
                simp only []
                congr 1
                congr 1
                omega
              · have h100q : (100 : ℚ) ≤ q := le_of_not_le hq100
                rw [min_eq_left h100q, jsRound_hundred]
                have hlb : 100 ≤ jsRound q := by
                  have := jsRound_mono h100q
                  rwa [jsRound_hundred] at this
                simp only []
                congr 1
                congr 1
                omega

theorem storedReports_append (a b : List DbEv) :
    storedReports (a ++ b) = storedReports a ++ storedReports b := by
  simp [storedReports, List.filterMap_append]

theorem writtenFilmstrips_append (a b : List DbEv) :
    writtenFilmstrips (a ++ b) = writtenFilmstrips a ++ writtenFilmstrips b := by
  simp [writtenFilmstrips, List.filterMap_append]

theorem storedReports_filmEvs (sid : ℕ) (o : Option FilmstripPayload) :
    storedReports (match o with
      | some p => if p.frames.length ≠ 0 then [DbEv.writeFilmstripEv sid p.frames] else []
      | none => []) = [] := by
  rcases o with _ | p
  · rfl
  · simp only []
    split
    · rfl
    · rfl

theorem storedReports_shotEvs (sid : ℕ) (o : Option Screenshot) :
    storedReports (match o with
      | some s => if s.buffer.length ≠ 0 then [DbEv.writeScreenshotEv sid] else []
      | none => []) = [] := by
  rcases o with _ | s
  · rfl
  · simp only []
    split
    · rfl
    · rfl

theorem writtenFilmstrips_shotEvs (sid : ℕ) (o : Option Screenshot) :
    writtenFilmstrips (match o with
      | some s => if s.buffer.length ≠ 0 then [DbEv.writeScreenshotEv sid] else []
      | none => []) = [] := by
  rcases o with _ | s
  · rfl
  · simp only []
    split
    · rfl
    · rfl

/-! # Claim theorems -/

/-- C4: `median` filters out null/NaN entries, then returns the middle
element of the ascending-sorted remainder for odd counts, the arithmetic
mean of the two central elements for even counts, and null when nothing
remains after filtering; the input array (and every other array on the
heap) is unmodified by the call.  Concretely: median([]) = null,
median([5]) = 5, median([1,2,3,4]) = 2.5, median([3,1,2]) = 2. -/
theorem c4_median_contract :
    (∀ (h : JsHeap) (r r' : ℕ), r' < h.arrays.length →
        readArr (medianProg h r).1 r' = readArr h r') ∧
    (∀ (h : JsHeap) (r : ℕ), (medianProg h r).2 = medianSpec (readArr h r)) ∧
    (medianProg { arrays := [[]] } 0).2 = none ∧
    (medianProg { arrays := [[JVal.num 5]] } 0).2 = some 5 ∧
    (medianProg { arrays := [[JVal.num 1, JVal.num 2, JVal.num 3, JVal.num 4]] } 0).2
      = some (5/2) ∧
    (medianProg { arrays := [[JVal.num 3, JVal.num 1, JVal.num 2]] } 0).2 = some 2 := by
  refine ⟨medianProg_heap, medianProg_val, by decide, by decide, ?_, by decide⟩
  norm_num [medianProg, readArr, allocArr, writeArr, sortByKey, insertSorted, JVal.keep,
    JVal.key, JVal.toNum, List.filter, List.getD]

/-- C4 witness: at a concrete heap holding the array [3, 1, 2] at
reference 0, the call leaves the array unchanged. -/
theorem c4_median_contract_witness :
    0 < (JsHeap.mk [[JVal.num 3, JVal.num 1, JVal.num 2]]).arrays.length ∧
    readArr (medianProg { arrays := [[JVal.num 3, JVal.num 1, JVal.num 2]] } 0).1 0 =
      readArr { arrays := [[JVal.num 3, JVal.num 1, JVal.num 2]] } 0 :=
  ⟨by decide, c4_median_contract.1 _ 0 0 (by decide)⟩

/-- C2 (amended): every orchestrated run issues exactly one browser launch
call; whenever the launch succeeds — whether the run then returns a
RunOutcome or fails mid-run — exactly one termination call is issued, and
it targets the launched browser; when the launch call itself fails, no
browser process exists and no termination call is made. -/
theorem c2_lifecycle_amended :
    ∀ env : RunEnv,
      launchCount (runOneLighthouseRun env).1 = 1 ∧
      launchOkCount (runOneLighthouseRun env).1 =
        (match env.launchResult with | .ok _ => 1 | .error _ => 0) ∧
      killCount (runOneLighthouseRun env).1 =
        (match env.launchResult with | .ok _ => 1 | .error _ => 0) ∧
      killsTargetLaunched env (runOneLighthouseRun env).1 = true := by
  intro env
  rcases henv : env.launchResult with e | chrome
  · unfold runOneLighthouseRun
    rw [henv]
    simp [launchCount, launchOkCount, killCount, killsTargetLaunched]
  · unfold runOneLighthouseRun
    rw [henv]
    simp only []
    rcases hlh : env.lighthouseResult with e2 | lhr
    · simp [launchCount, launchOkCount, killCount, killsTargetLaunched, henv]
    · simp [launchCount, launchOkCount, killCount, killsTargetLaunched, henv]

/-- C2 counterexample: on a launch failure the claim as stated is false —
zero browser processes are launched and zero termination calls are issued
on that path, not exactly one of each. -/
theorem c2_counterexample :
    (runOneLighthouseRun envLaunchFail).1 = [BrowserEv.launchCall false] ∧
    (runOneLighthouseRun envLaunchFail).2 =
      Except.error "Chrome failed to start: spawn ENOENT" ∧
    launchOkCount (runOneLighthouseRun envLaunchFail).1 = 0 ∧
    killCount (runOneLighthouseRun envLaunchFail).1 = 0 ∧
    ¬ (launchOkCount (runOneLighthouseRun envLaunchFail).1 = 1 ∧
       killCount (runOneLighthouseRun envLaunchFail).1 = 1) :=
  ⟨rfl, rfl, rfl, rfl, by decide⟩

/-- C9: when the audit pass succeeds, any failure inside the in-session
screenshot capture (connect, navigation, or image capture) yields a
successful RunOutcome whose screenshot is null, with the run report and
its extracted summary returned unchanged — the run itself never fails. -/
theorem c9_screenshot_failure_degrades (env : RunEnv) (chrome : ChromeHandle)
    (lhr : Lhr) (e : JsError) (hl : env.launchResult = .ok chrome)
    (ha : env.lighthouseResult = .ok lhr) (hs : shotAttempt env.shot = .error e) :
    runOneLighthouseRun env =
      ([.launchCall true, .killCall chrome.port],
       .ok { report := lhr, summary := extractSummary lhr, screenshot := none }) := by
  unfold runOneLighthouseRun
  rw [hl]
  simp only []
  rw [ha]
  simp only []
  unfold takeScreenshotInBrowser
  rw [hs]

/-- C9 witness: a run whose page navigation for the screenshot times out
still returns its report and summary, with a null screenshot. -/
theorem c9_screenshot_failure_witness :
    runOneLighthouseRun envShotFail =
      ([.launchCall true, .killCall 9222],
       .ok { report := filmstripLhr 2, summary := extractSummary (filmstripLhr 2),
             screenshot := none }) :=
  c9_screenshot_failure_degrades envShotFail ⟨9222⟩ (filmstripLhr 2)
    { code := none, message := "Navigation timeout of 30000 ms exceeded" } rfl rfl rfl

/-- C3: in a two-device scan where the mobile pass succeeds and the
desktop pass throws, exactly one scan row is persisted — the mobile row,
which is never rolled back (no delete is issued) — and the response is the
distinct desktop-failed redirect, different from the full-success redirect
and from the total-failure dashboard error. -/
theorem c3_desktop_fail_after_mobile (userId : ℕ) (url runId errMsg : String)
    (outcome : MergedOutcome) (fitsM fitsD : Lhr → Bool) (idM idD : ℕ) :
    createCount (postScansBothDevices userId url runId
        { lhResult := .ok outcome, fitsSizeCap := fitsM, scanId := idM }
        { lhResult := .error errMsg, fitsSizeCap := fitsD, scanId := idD }).1 = 1 ∧
    deleteCount (postScansBothDevices userId url runId
        { lhResult := .ok outcome, fitsSizeCap := fitsM, scanId := idM }
        { lhResult := .error errMsg, fitsSizeCap := fitsD, scanId := idD }).1 = 0 ∧
    (postScansBothDevices userId url runId
        { lhResult := .ok outcome, fitsSizeCap := fitsM, scanId := idM }
        { lhResult := .error errMsg, fitsSizeCap := fitsD, scanId := idD }).1.head? =
      some (DbEv.createScanEv userId url "mobile"
        (if fitsM (stripFilmstripFromLhr outcome.report)
          then some (stripFilmstripFromLhr outcome.report) else none) (some runId) idM) ∧
    (postScansBothDevices userId url runId
        { lhResult := .ok outcome, fitsSizeCap := fitsM, scanId := idM }
        { lhResult := .error errMsg, fitsSizeCap := fitsD, scanId := idD }).2 =
      ScanResponse.redirectDesktopFailed ∧
    (∀ i, ScanResponse.redirectDesktopFailed ≠ ScanResponse.redirectToScan i) ∧
    (∀ s, ScanResponse.redirectDesktopFailed ≠ ScanResponse.dashboardError s) := by
  have hres : postScansBothDevices userId url runId
      { lhResult := .ok outcome, fitsSizeCap := fitsM, scanId := idM }
      { lhResult := .error errMsg, fitsSizeCap := fitsD, scanId := idD } =
      (([DbEv.createScanEv userId url "mobile"
          (if fitsM (stripFilmstripFromLhr outcome.report)
            then some (stripFilmstripFromLhr outcome.report) else none) (some runId) idM] ++
        (match extractFilmstripFromLhr outcome.report with
          | some p => if p.frames.length ≠ 0 then [DbEv.writeFilmstripEv idM p.frames] else []
          | none => []) ++
        (match outcome.screenshot with
          | some s => if s.buffer.length ≠ 0 then [DbEv.writeScreenshotEv idM] else []
          | none => [])) ++ [],
       ScanResponse.redirectDesktopFailed) := rfl
  rw [hres]
  refine ⟨?_, ?_, ?_, rfl, fun i h => ScanResponse.noConfusion h,
    fun s h => ScanResponse.noConfusion h⟩
  · rw [createCount_append, createCount_append, createCount_append,
      createCount_filmEvs, createCount_shotEvs]
    rfl
  · rw [deleteCount_append, deleteCount_append, deleteCount_append,
      deleteCount_filmEvs, deleteCount_shotEvs]
    rfl
  · rfl

/-- C5: category-score normalization maps a score in [0, 1] to
round(score * 100), treats a score exceeding 1 as already 0-100 and clamps
it into [0, 100] instead of re-scaling, and omits the category entirely
when the score is null, negative, or NaN.  Concretely 0.73 yields 73, 95
yields 95, 150 is clamped to 100, and -1, NaN and null produce no field. -/
theorem c5_category_score_normalization :
    (∀ cats : List (String × Option CategoryEntry),
      extractCategories cats = cats.filterMap fun p => categoryEntrySpec p.1 p.2) ∧
    extractCategories
        [("performance", some { score := .num (73/100) }),
         ("seo", some { score := .num 95 }),
         ("pwa", some { score := .num 150 }),
         ("accessibility", some { score := .num (-1) }),
         ("best-practices", some { score := .nan }),
         ("other", some { score := .null })] =
      [("performance", 73), ("seo", 95), ("pwa", 100)] := by
  constructor
  · intro cats
    unfold extractCategories
    exact List.filterMap_congr fun p _ => categoryEntry_code_eq_spec p.1 p.2
  · norm_num [extractCategories, normalizeCategoryScore, JVal.toNumber, JVal.isLooseNull,
      jsRound, List.filterMap]

/-- C6: recommendation extraction iterates the audits in order, skips
entries whose score is missing or not a number, skips entries scoring at
least 0.9, caps the output at 20 items, and sorts the result ascending by
the integer score round(score * 100); every retained item's fields
(including the hyphen-to-space title fallback) come from its source audit.
Concretely, audits scored [0.95, 0.40, 0.89, 0.90, null] produce exactly
the 0.40 and 0.89 items, ordered [40, 89].  (Scores are assumed non-NaN,
as in every engine-produced, JSON-parsed result.) -/
theorem c6_recommendation_extraction :
    (∀ audits : List (String × Option AuditEntry), auditsNoNaN audits = true →
      (extractRecommendations audits).length ≤ 20 ∧
      (extractRecommendations audits).Sorted (fun x y => x.score.key ≤ y.score.key) ∧
      ∀ rec ∈ extractRecommendations audits, ∃ id a q,
        (id, some a) ∈ audits ∧ a.score = JVal.num q ∧ q < 9/10 ∧
        rec = mkRec id a ∧ rec.score = JVal.num (jsRound (q * 100))) ∧
    (extractRecommendations recExampleAudits).map (fun r => (r.id, r.score)) =
      [("audit-b", JVal.num 40), ("audit-c", JVal.num 89)] := by
  constructor
  · intro audits hN
    refine ⟨?_, ?_, ?_⟩
    · unfold extractRecommendations
      rw [sortByKey_length]
      exact collectRecs_length_le audits [] (by simp)
    · exact sorted_sortByKey _ _
    · intro rec hrec
      unfold extractRecommendations at hrec
      rw [mem_sortByKey] at hrec
      rcases collectRecs_mem audits [] rec hrec with h | ⟨id, a, hm, hnull, htype, hge, heq⟩
      · simp at h
      · have hscore : ∃ q, a.score = JVal.num q := by
          have hnan : a.score ≠ JVal.nan := by
            have := List.all_eq_true.mp hN (id, some a) hm
            simpa using this
          cases hsc : a.score with
          | num q => exact ⟨q, rfl⟩
          | nan => exact absurd hsc hnan
          | null => rw [hsc] at hnull; simp [JVal.isLooseNull] at hnull
          | undef => rw [hsc] at hnull; simp [JVal.isLooseNull] at hnull
        obtain ⟨q, hsc⟩ := hscore
        refine ⟨id, a, q, hm, hsc, ?_, heq, ?_⟩
        · rw [hsc] at hge
          simp [JVal.ge09] at hge
          exact hge
        · rw [heq]
          simp [mkRec, JVal.round100, hsc]
  · norm_num [extractRecommendations, recExampleAudits, collectRecs, sortByKey, insertSorted,
      mkRec, JVal.isLooseNull, JVal.isTypeofNumber, JVal.ge09, JVal.round100, JVal.key, jsOrStr,
      hyphenToSpace, jsRound]

/-- C6 witness: the general properties instantiated at the claim's
concrete audit set. -/
theorem c6_recommendation_extraction_witness :
    (extractRecommendations recExampleAudits).length ≤ 20 ∧
    (extractRecommendations recExampleAudits).Sorted
      (fun x y => x.score.key ≤ y.score.key) ∧
    ∀ rec ∈ extractRecommendations recExampleAudits, ∃ id a q,
      (id, some a) ∈ recExampleAudits ∧ a.score = JVal.num q ∧ q < 9/10 ∧
      rec = mkRec id a ∧ rec.score = JVal.num (jsRound (q * 100)) :=
  c6_recommendation_extraction.1 recExampleAudits (by decide)

theorem extract_none_no_audit (lhr : Lhr)
    (hj : (lhr.audits.lookup filmstripAuditId).join = none) :
    extractFilmstripFromLhr lhr = none := by
  unfold extractFilmstripFromLhr
  rw [hj]

theorem extract_none_no_details (lhr : Lhr) (a : AuditEntry)
    (hj : (lhr.audits.lookup filmstripAuditId).join = some a)
    (hd : a.details = none) : extractFilmstripFromLhr lhr = none := by
  unfold extractFilmstripFromLhr
  rw [hj]
  simp only []
  rw [hd]

theorem extract_none_wrong_type (lhr : Lhr) (a : AuditEntry) (d : AuditDetails)
    (hj : (lhr.audits.lookup filmstripAuditId).join = some a)
    (hd : a.details = some d) (ht : d.type ≠ "filmstrip") :
    extractFilmstripFromLhr lhr = none := by
  unfold extractFilmstripFromLhr
  rw [hj]
  simp only []
  rw [hd]
  simp only []
  rw [if_pos ht]

theorem extract_none_empty_items (lhr : Lhr) (a : AuditEntry) (d : AuditDetails)
    (hj : (lhr.audits.lookup filmstripAuditId).join = some a)
    (hd : a.details = some d) (hi : d.items = some []) :
    extractFilmstripFromLhr lhr = none := by
  unfold extractFilmstripFromLhr
  rw [hj]
  simp only []
  rw [hd]
  simp only []
  by_cases ht : d.type ≠ "filmstrip"
  · rw [if_pos ht]
  · rw [if_neg ht, hi]
    simp only []
    rfl

/-- C7: filmstrip extraction yields null — never an error — when the
filmstrip audit is absent, its details are missing or not of filmstrip
type, or its item list is empty; whenever it yields an output, the output
has at most 25 frames, each with non-empty image data, in source order (a
sublist of the first 25 source items).  Concretely: 40 data-carrying
candidate frames yield exactly the first 25 in original order; 5 candidate
frames of which 2 lack data yield exactly the 3 data-carrying ones. -/
theorem c7_filmstrip_truncation :
    (∀ lhr : Lhr, (lhr.audits.lookup filmstripAuditId).join = none →
        extractFilmstripFromLhr lhr = none) ∧
    (∀ lhr a, (lhr.audits.lookup filmstripAuditId).join = some a →
        a.details = none → extractFilmstripFromLhr lhr = none) ∧
    (∀ lhr a d, (lhr.audits.lookup filmstripAuditId).join = some a →
        a.details = some d → d.type ≠ "filmstrip" →
        extractFilmstripFromLhr lhr = none) ∧
    (∀ lhr a d, (lhr.audits.lookup filmstripAuditId).join = some a →
        a.details = some d → d.items = some [] →
        extractFilmstripFromLhr lhr = none) ∧
    (∀ lhr p, extractFilmstripFromLhr lhr = some p →
        p.frames.length ≤ FILMSTRIP_MAX_FRAMES ∧
        (∀ f ∈ p.frames, f.data ≠ "") ∧
        ∃ a d items, (lhr.audits.lookup filmstripAuditId).join = some a ∧
          a.details = some d ∧ d.items = some items ∧
          p.frames.Sublist ((items.take FILMSTRIP_MAX_FRAMES).map fun item =>
            ({ timing := item.timing, data := (item.data).getD "" } : Frame))) ∧
    (extractFilmstripFromLhr (filmstripLhr 40)).map (fun p => p.frames.map Frame.data) =
      some ((List.range 25).map fun i => "frame" ++ toString i) ∧
    (extractFilmstripFromLhr filmstripLhr5).map (fun p => p.frames.map Frame.data) =
      some ["d0", "d2", "d4"] := by
  refine ⟨extract_none_no_audit, extract_none_no_details, extract_none_wrong_type,
    extract_none_empty_items, ?_, by decide, by decide⟩
  intro lhr p hp
  obtain ⟨a, d, items, hj, hd, ht, hi, hne, hfr, hpne⟩ := extract_some_props lhr p hp
  obtain ⟨hlen, hdata⟩ := extract_frames_length lhr p hp
  refine ⟨hlen, hdata, a, d, items, hj, hd, hi, ?_⟩
  rw [hfr]
  exact List.filter_sublist _

/-- C7 witness: an LHR with no audits yields the null no-filmstrip
outcome. -/
theorem c7_filmstrip_truncation_witness :
    extractFilmstripFromLhr emptyLhr = none :=
  c7_filmstrip_truncation.1 emptyLhr rfl

/-- C8: stripping sets the filmstrip audit's detail item list to empty and
leaves every other field of the raw result unchanged (all other top-level
fields, and every other audit entry); in the scan workflow the persisted
raw report is exactly the stripped report (when it fits the size cap), the
persisted filmstrip file holds the frames extracted from the report before
stripping, and the persisted raw report contains no filmstrip frames. -/
theorem c8_strip_filmstrip_before_persist :
    (∀ lhr : Lhr,
      (stripFilmstripFromLhr lhr).categories = lhr.categories ∧
      (stripFilmstripFromLhr lhr).finalUrl = lhr.finalUrl ∧
      (stripFilmstripFromLhr lhr).requestedUrl = lhr.requestedUrl ∧
      (stripFilmstripFromLhr lhr).environment = lhr.environment ∧
      (stripFilmstripFromLhr lhr).userAgent = lhr.userAgent ∧
      (∀ id, id ≠ filmstripAuditId →
        (stripFilmstripFromLhr lhr).audits.lookup id = lhr.audits.lookup id) ∧
      extractFilmstripFromLhr (stripFilmstripFromLhr lhr) = none ∧
      (∀ a d items, (lhr.audits.lookup filmstripAuditId).join = some a →
        a.details = some d → d.type = "filmstrip" → d.items = some items →
        ((stripFilmstripFromLhr lhr).audits.lookup filmstripAuditId).join =
          some { a with details := some { d with items := some [] } })) ∧
    (∀ (userId : ℕ) (url ff : String) (runId : Option String) (fits : Lhr → Bool)
        (sid : ℕ) (outcome : MergedOutcome),
      storedReports (runOneScanModel userId url ff runId
          { lhResult := .ok outcome, fitsSizeCap := fits, scanId := sid }).1 =
        [if fits (stripFilmstripFromLhr outcome.report)
          then some (stripFilmstripFromLhr outcome.report) else none] ∧
      writtenFilmstrips (runOneScanModel userId url ff runId
          { lhResult := .ok outcome, fitsSizeCap := fits, scanId := sid }).1 =
        (match extractFilmstripFromLhr outcome.report with
          | some p => [p.frames]
          | none => []) ∧
      (∀ rep, some rep ∈ storedReports (runOneScanModel userId url ff runId
          { lhResult := .ok outcome, fitsSizeCap := fits, scanId := sid }).1 →
        extractFilmstripFromLhr rep = none)) := by
  constructor
  · intro lhr
    obtain ⟨h1, h2, h3, h4, h5⟩ := strip_preserves_fields lhr
    exact ⟨h1, h2, h3, h4, h5, strip_audits_lookup_ne lhr, extract_strip_none lhr,
      fun a d items hj hd ht hi => strip_filmstrip_lookup lhr a d items hj hd ht hi⟩
  · intro userId url ff runId fits sid outcome
    rw [runOneScanModel_ok_eq]
    simp only []
    refine ⟨?_, ?_, ?_⟩
    · rw [storedReports_append, storedReports_append, storedReports_filmEvs,
        storedReports_shotEvs]
      simp [storedReports]
    · rw [writtenFilmstrips_append, writtenFilmstrips_append, writtenFilmstrips_shotEvs]
      rcases hEx : extractFilmstripFromLhr outcome.report with _ | p
      · simp [writtenFilmstrips]
      · have hnz : p.frames.length ≠ 0 := by
          obtain ⟨_, _, _, _, _, _, _, _, _, hpne⟩ :=
            extract_some_props outcome.report p hEx
          intro h0
          exact hpne (List.length_eq_zero.mp h0)
        simp only []
        rw [if_pos hnz]
        simp [writtenFilmstrips]
    · intro rep hrep
      rw [storedReports_append, storedReports_append, storedReports_filmEvs,
        storedReports_shotEvs] at hrep
      simp only [storedReports, List.filterMap_cons, List.filterMap_nil,
        List.append_nil, List.mem_singleton] at hrep
      by_cases hfit : fits (stripFilmstripFromLhr outcome.report)
      · rw [if_pos hfit] at hrep
        rw [Option.some_inj.mp hrep]
        exact extract_strip_none outcome.report
      · rw [if_neg hfit] at hrep
        exact absurd hrep (Option.some_ne_none rep)

/-- C8 witness: on a report carrying a three-frame filmstrip, the stripped
report yields no filmstrip, while an unrelated audit id is untouched. -/
theorem c8_strip_filmstrip_before_persist_witness :
    extractFilmstripFromLhr (stripFilmstripFromLhr (filmstripLhr 3)) = none ∧
    (stripFilmstripFromLhr (filmstripLhr 3)).audits.lookup "speed-index" =
      (filmstripLhr 3).audits.lookup "speed-index" :=
  ⟨(c8_strip_filmstrip_before_persist.1 (filmstripLhr 3)).2.2.2.2.2.2.1,
   (c8_strip_filmstrip_before_persist.1 (filmstripLhr 3)).2.2.2.2.2.1 "speed-index"
     (by decide)⟩

/-- C1 counterexample: with runs scoring [60, 80, 70], the run scoring 70
is selected and its report and screenshot are returned verbatim — but when
that selected run's summary has no Chrome version (and no final URL), the
merged summary's chromeVersion and finalUrl fall back to the FIRST run's
values, so they do not come from the selected run as the claim states. -/
theorem c1_representative_run_counterexample :
    (runLighthouse runA runB runC).report = runC.report ∧
    (runLighthouse runA runB runC).screenshot = runC.screenshot ∧
    (runLighthouse runA runB runC).summary.map SummaryView.chromeVersion =
      some (some "121.0.1") ∧
    runC.summary.chromeVersion = none ∧
    (runLighthouse runA runB runC).summary.map SummaryView.finalUrl =
      some (some "http://a.example/") ∧
    runC.summary.finalUrl = none := by
  refine ⟨?_, ?_, ?_, rfl, ?_, rfl⟩ <;>
    norm_num [runLighthouse, mergeMedianSummary, bestRunOf, reduceBest, medianQ, sortByKey,
      insertSorted, perfOf, perfOrZero, distTo, List.lookup, runA, runB, runC, mkRun, emptyLhr,
      List.getD, abs, jsOrOpt, strFalsy, metricIds, jsRound, Option.map]

/-- C1 (amended): for every result of runLighthouse built from three
successful runs whose performance-score median m is defined, the returned
report and screenshot are taken verbatim from the selected run — the run
minimizing the distance of its own performance score to m, the earliest
such run on ties — and the merged summary's recommendations come from that
same run; its finalUrl and chromeVersion also come from that run whenever
they are non-falsy there, and otherwise fall back to the first run's
values.  For runs scoring [60, 80, 70] the run scoring 70 is selected and
its report and screenshot appear in the MergedOutcome. -/
theorem c1_representative_run_amended :
    (∀ (r1 r2 r3 : RunOutcome) (m : ℚ),
      medianQ ((([r1, r2, r3]).filterMap perfOf).map fun z => (z : ℚ)) = some m →
      (runLighthouse r1 r2 r3).report = (bestRunOf r1 [r2, r3]).report ∧
      (runLighthouse r1 r2 r3).screenshot = (bestRunOf r1 [r2, r3]).screenshot ∧
      bestRunOf r1 [r2, r3] ∈ [r1, r2, r3] ∧
      (∀ r' ∈ [r1, r2, r3], distTo m (bestRunOf r1 [r2, r3]) ≤ distTo m r') ∧
      (∃ l₁ l₂, [r1, r2, r3] = l₁ ++ bestRunOf r1 [r2, r3] :: l₂ ∧
        ∀ r' ∈ l₁, distTo m (bestRunOf r1 [r2, r3]) < distTo m r') ∧
      (runLighthouse r1 r2 r3).summary.map SummaryView.recommendations =
        some (bestRunOf r1 [r2, r3]).summary.recommendations ∧
      (runLighthouse r1 r2 r3).summary.map SummaryView.finalUrl =
        some (jsOrOpt (bestRunOf r1 [r2, r3]).summary.finalUrl r1.summary.finalUrl) ∧
      (runLighthouse r1 r2 r3).summary.map SummaryView.chromeVersion =
        some (jsOrOpt (bestRunOf r1 [r2, r3]).summary.chromeVersion
          r1.summary.chromeVersion)) ∧
    ((runLighthouse runA runB runC).report = runC.report ∧
     (runLighthouse runA runB runC).screenshot = runC.screenshot ∧
     perfOf runC = some 70 ∧
     medianQ ((([runA, runB, runC]).filterMap perfOf).map fun z => (z : ℚ)) = some 70) := by
  constructor
  · intro r1 r2 r3 m hm
    have hb := bestRunOf_eq_reduceBest r1 [r2, r3] m hm
    refine ⟨rfl, rfl, ?_, ?_, ?_, rfl, rfl, rfl⟩
    · rw [hb]
      exact reduceBest_mem m r1 [r2, r3]
    · rw [hb]
      exact reduceBest_min m r1 [r2, r3]
    · rw [hb]
      exact reduceBest_earliest m r1 [r2, r3]
  · refine ⟨?_, ?_, ?_, ?_⟩ <;>
      norm_num [runLighthouse, mergeMedianSummary, bestRunOf, reduceBest, medianQ, sortByKey,
        insertSorted, perfOf, perfOrZero, distTo, List.lookup, runA, runB, runC, mkRun,
        emptyLhr, List.getD, abs, jsOrOpt, strFalsy, metricIds, jsRound]

/-- C1 witness: the amended selection properties instantiated at the
concrete [60, 80, 70] runs with median 70. -/
theorem c1_representative_run_amended_witness :
    (runLighthouse runA runB runC).report = (bestRunOf runA [runB, runC]).report ∧
    (runLighthouse runA runB runC).screenshot = (bestRunOf runA [runB, runC]).screenshot ∧
    bestRunOf runA [runB, runC] ∈ [runA, runB, runC] ∧
    (∀ r' ∈ [runA, runB, runC], distTo 70 (bestRunOf runA [runB, runC]) ≤ distTo 70 r') ∧
    (∃ l₁ l₂, [runA, runB, runC] = l₁ ++ bestRunOf runA [runB, runC] :: l₂ ∧
      ∀ r' ∈ l₁, distTo 70 (bestRunOf runA [runB, runC]) < distTo 70 r') ∧
    (runLighthouse runA runB runC).summary.map SummaryView.recommendations =
      some (bestRunOf runA [runB, runC]).summary.recommendations ∧
    (runLighthouse runA runB runC).summary.map SummaryView.finalUrl =
      some (jsOrOpt (bestRunOf runA [runB, runC]).summary.finalUrl runA.summary.finalUrl) ∧
    (runLighthouse runA runB runC).summary.map SummaryView.chromeVersion =
      some (jsOrOpt (bestRunOf runA [runB, runC]).summary.chromeVersion
        runA.summary.chromeVersion) :=
  c1_representative_run_amended.1 runA runB runC 70 (by
    norm_num [medianQ, sortByKey, insertSorted, perfOf, List.lookup, runA, runB, runC,
      mkRun, emptyLhr, List.getD])

/-- C10: in representative-run selection, whenever the performance-score
median m is defined, every run — including one whose summary lacks a
performance score, which participates with an assumed score of 0 — takes
part in the closest-to-median comparison, and such a run can be selected:
with runs scoring [none, 0, 80] (median of the present scores 40), the run
without a performance score is selected and its report and screenshot are
the ones returned by runLighthouse. -/
theorem c10_missing_perf_participates_as_zero :
    (∀ (mm : ℚ) (r : RunOutcome), distTo mm r = |(((perfOf r).getD 0 : ℤ) : ℚ) - mm|) ∧
    (∀ (first : RunOutcome) (rest : List RunOutcome) (m : ℚ),
      medianQ (((first :: rest).filterMap perfOf).map fun z => (z : ℚ)) = some m →
      bestRunOf first rest ∈ first :: rest ∧
      (∀ r' ∈ first :: rest, distTo m (bestRunOf first rest) ≤ distTo m r')) ∧
    (perfOf runNoPerf = none ∧
     medianQ ((([runNoPerf, runZero, runEighty]).filterMap perfOf).map fun z => (z : ℚ)) =
       some 40 ∧
     bestRunOf runNoPerf [runZero, runEighty] = runNoPerf ∧
     (runLighthouse runNoPerf runZero runEighty).report = runNoPerf.report ∧
     (runLighthouse runNoPerf runZero runEighty).screenshot = runNoPerf.screenshot) := by
  refine ⟨fun mm r => rfl, ?_, ?_, ?_, ?_, ?_, ?_⟩
  · intro first rest m hm
    have hb := bestRunOf_eq_reduceBest first rest m hm
    rw [hb]
    exact ⟨reduceBest_mem m first rest, reduceBest_min m first rest⟩
  · norm_num [perfOf, runNoPerf, mkRun, emptyLhr, List.lookup]
  · norm_num [medianQ, sortByKey, insertSorted, perfOf, List.lookup, runNoPerf, runZero,
      runEighty, mkRun, emptyLhr, List.getD]
  · norm_num [bestRunOf, reduceBest, medianQ, sortByKey, insertSorted, perfOf, perfOrZero,
      distTo, List.lookup, runNoPerf, runZero, runEighty, mkRun, emptyLhr, List.getD, abs]
  · norm_num [runLighthouse, mergeMedianSummary, bestRunOf, reduceBest, medianQ, sortByKey,
      insertSorted, perfOf, perfOrZero, distTo, List.lookup, runNoPerf, runZero, runEighty,
      mkRun, emptyLhr, List.getD, abs]
  · norm_num [runLighthouse, mergeMedianSummary, bestRunOf, reduceBest, medianQ, sortByKey,
      insertSorted, perfOf, perfOrZero, distTo, List.lookup, runNoPerf, runZero, runEighty,
      mkRun, emptyLhr, List.getD, abs]

/-- C10 witness: the participation properties instantiated at the runs
[no-performance, 0, 80] with median 40. -/
theorem c10_missing_perf_participates_as_zero_witness :
    bestRunOf runNoPerf [runZero, runEighty] ∈ [runNoPerf, runZero, runEighty] ∧
    (∀ r' ∈ [runNoPerf, runZero, runEighty],
      distTo 40 (bestRunOf runNoPerf [runZero, runEighty]) ≤ distTo 40 r') :=
  c10_missing_perf_participates_as_zero.2.1 runNoPerf [runZero, runEighty] 40 (by
    norm_num [medianQ, sortByKey, insertSorted, perfOf, List.lookup, runNoPerf, runZero,
      runEighty, mkRun, emptyLhr, List.getD])

end UPGSPerf
